import Mathlib

/-!
Verification development for the Liqueur package manager
(`src/Liqueur.py`, `src/main.py`, `src/first_setup.py`).

The Python sources are shallowly embedded: pure string manipulation is
translated to executable Lean functions over `String`/`List Char`; the
stateful install/uninstall orchestrator is translated to a state-passing
function over an explicit system state (`Sys`) together with a trace of
observable effects (`Effect`).  Environment behaviour that the code reacts
to (network success, archive contents, interactive confirmations, raising
launchers) is supplied as explicit world data (`FlatWorld`, `WorldTree`).
-/

set_option autoImplicit false

namespace Liqueur

/-! ## Python string primitives

Each helper mirrors the semantics of the corresponding CPython string
operation on the inputs the program feeds it (ASCII text; `pyLower` is
ASCII-only case mapping, which agrees with `str.lower` on ASCII). -/

/-- Characters treated as whitespace by `str.strip()` (ASCII subset). -/
def pyWhitespace : List Char := [' ', '\t', '\n', '\r', '\x0b', '\x0c']

/-- Remove characters satisfying `p` from both ends of a character list. -/
def stripEnds (p : Char → Bool) (cs : List Char) : List Char :=
  ((cs.dropWhile p).reverse.dropWhile p).reverse

/-- Python `s.strip()`. -/
def pyStrip (s : String) : String :=
  String.mk (stripEnds (fun c => pyWhitespace.contains c) s.data)

/-- Python `s.strip(chars)`. -/
def pyStripChars (chars : String) (s : String) : String :=
  String.mk (stripEnds (fun c => chars.data.contains c) s.data)

/-- Python `s.lower()` (ASCII case mapping). -/
def pyLower (s : String) : String :=
  String.mk (s.data.map Char.toLower)

/-- Python `p in s` (substring containment). -/
def pyIn (needle hay : String) : Bool :=
  hay.data.tails.any (fun t => needle.data.isPrefixOf t)

/-- Python `s.startswith(p)`. -/
def pyStartsWith (s p : String) : Bool :=
  p.data.isPrefixOf s.data

/-- Python `s.endswith(p)`. -/
def pyEndsWith (s p : String) : Bool :=
  p.data.isSuffixOf s.data

/-- Python `s.split('#')[0]`: the prefix of `s` before the first `'#'`. -/
def takeUntilHash (s : String) : String :=
  String.mk (s.data.takeWhile (fun c => c ≠ '#'))

/-- The part of `s` strictly after the first occurrence of the character
`sep`, up to the next occurrence of `sep`.  For an `s` starting with `sep`
followed by text this is Python `s.split(sep)[1]`; it is used for
`dep.split("/")[1]`. -/
def pySplitSlashGet1 (s : String) : String :=
  String.mk ((((s.data.dropWhile (fun c => c ≠ '/')).drop 1)).takeWhile (fun c => c ≠ '/'))

/-- Python `s.split("/")[-1]`: the suffix after the last `'/'` (the whole
string when no `'/'` occurs). -/
def afterLastSlash (s : String) : String :=
  String.mk ((s.data.reverse.takeWhile (fun c => c ≠ '/')).reverse)

/-- Python `s.split("/")[0]` on a string: the prefix before the first `'/'`. -/
def beforeFirstSlash (s : String) : String :=
  String.mk (s.data.takeWhile (fun c => c ≠ '/'))

/-- The remainder of `s` strictly after the first occurrence of the
substring `sep` (fuel-indexed scan; fuel `cs.length` suffices).  Used to
model `line.split("Name:")[1]` together with `takeUntilOcc`. -/
def dropThroughOcc (sep : List Char) : Nat → List Char → List Char
  | 0, _ => []
  | _ + 1, [] => []
  | f + 1, c :: cs =>
    if sep.isPrefixOf (c :: cs) then (c :: cs).drop sep.length
    else dropThroughOcc sep f cs

/-- The prefix of `cs` before the first occurrence of `sep`. -/
def takeUntilOcc (sep : List Char) : Nat → List Char → List Char
  | 0, _ => []
  | _ + 1, [] => []
  | f + 1, c :: cs =>
    if sep.isPrefixOf (c :: cs) then []
    else c :: takeUntilOcc sep f cs

/-- Python `s.split(sep)[1]` for a non-empty `sep` occurring in `s`:
the text between the first and second occurrences of `sep`.  In
`parse_options` this is only evaluated under a `startswith` guard, so the
first occurrence is at position 0. -/
def pySplitGet1 (sep s : String) : String :=
  let rest := dropThroughOcc sep.data (s.data.length + 1) s.data
  String.mk (takeUntilOcc sep.data (rest.length + 1) rest)

/-! ## A model of `json.loads`

`parse_options` feeds single manifest lines to `json.loads` inside
`try/except`.  `json_loads` below parses the full JSON grammar accepted by
Python's default decoder (including the `NaN`/`Infinity` extensions),
returning `none` exactly when `json.loads` would raise.  Numbers are kept
as their lexemes, since the program never computes with them. -/

inductive JVal where
  | jnull
  | jbool (b : Bool)
  | jnum (lexeme : String)
  | jstr (s : String)
  | jarr (xs : List JVal)
  | jobj (fields : List (String × JVal))

/-- JSON insignificant whitespace. -/
def jsonWs : List Char := [' ', '\t', '\n', '\r']

def skipWs (cs : List Char) : List Char :=
  cs.dropWhile (fun c => jsonWs.contains c)

def isHexDigit (c : Char) : Bool :=
  c.isDigit || ('a' ≤ c && c ≤ 'f') || ('A' ≤ c && c ≤ 'F')

/-- Parse the body of a JSON string after the opening quote, returning the
decoded text and the remaining input.  Escape decoding keeps `\uXXXX`
escapes abstract (the program never inspects decoded escapes on the paths
we verify); wellformedness is checked exactly. -/
def parseJStr : Nat → List Char → Option (List Char × List Char)
  | 0, _ => none
  | _ + 1, [] => none
  | f + 1, c :: cs =>
    if c = '"' then some ([], cs)
    else if c = '\\' then
      match cs with
      | [] => none
      | e :: cs' =>
        if e ∈ ['"', '\\', '/', 'b', 'f', 'n', 'r', 't'] then
          match parseJStr f cs' with
          | some (out, rest) => some (e :: out, rest)
          | none => none
        else if e = 'u' then
          match cs' with
          | h1 :: h2 :: h3 :: h4 :: cs'' =>
            if isHexDigit h1 && isHexDigit h2 && isHexDigit h3 && isHexDigit h4 then
              match parseJStr f cs'' with
              | some (out, rest) => some ('u' :: out, rest)
              | none => none
            else none
          | _ => none
        else none
    else if c.val < 32 then none
    else
      match parseJStr f cs with
      | some (out, rest) => some (c :: out, rest)
      | none => none

/-- Parse a JSON number lexeme (after an optional leading minus has been
checked by the caller to introduce a digit). -/
def parseJNum (cs : List Char) : Option (List Char × List Char) :=
  let (sign, cs₁) :=
    match cs with
    | '-' :: rest => ((['-'] : List Char), rest)
    | _ => (([] : List Char), cs)
  let intPart := cs₁.takeWhile Char.isDigit
  if intPart = [] then none
  else if intPart.length > 1 && intPart.headD '0' = '0' then none
  else
    let cs₂ := cs₁.drop intPart.length
    let (frac, cs₃) :=
      match cs₂ with
      | '.' :: rest =>
        let ds := rest.takeWhile Char.isDigit
        if ds = [] then (none, cs₂) else (some ('.' :: ds), rest.drop ds.length)
      | _ => (none, cs₂)
    match frac, cs₂ with
    | none, '.' :: _ => none
    | _, _ =>
      let fracL := frac.getD []
      let (expo, cs₄) :=
        match cs₃ with
        | e :: rest =>
          if e = 'e' || e = 'E' then
            let (es, rest') :=
              match rest with
              | s :: r' => if s = '+' || s = '-' then ([e, s], r') else ([e], rest)
              | [] => ([e], rest)
            let ds := rest'.takeWhile Char.isDigit
            if ds = [] then (none, cs₃) else (some (es ++ ds), rest'.drop ds.length)
          else (none, cs₃)
        | [] => (none, cs₃)
      match expo, cs₃ with
      | none, e :: _ =>
        if e = 'e' || e = 'E' then none
        else some (sign ++ intPart ++ fracL, cs₃)
      | none, [] => some (sign ++ intPart ++ fracL, cs₃)
      | some ex, _ => some (sign ++ intPart ++ fracL ++ ex, cs₄)

mutual

/-- Parse one JSON value at the head of the input (fuel-indexed). -/
def parseJVal : Nat → List Char → Option (JVal × List Char)
  | 0, _ => none
  | f + 1, cs0 =>
    let cs := skipWs cs0
    match cs with
    | [] => none
    | c :: rest =>
      if c = '"' then
        match parseJStr (rest.length + 1) rest with
        | some (out, r) => some (.jstr (String.mk out), r)
        | none => none
      else if c = '[' then
        let r₁ := skipWs rest
        match r₁ with
        | ']' :: r₂ => some (.jarr [], r₂)
        | _ => parseJArrItems f r₁ []
      else if c = '{' then
        let r₁ := skipWs rest
        match r₁ with
        | '}' :: r₂ => some (.jobj [], r₂)
        | _ => parseJObjItems f r₁ []
      else if ['t'].isPrefixOf cs then
        if ['t', 'r', 'u', 'e'].isPrefixOf cs then some (.jbool true, cs.drop 4) else none
      else if ['f'].isPrefixOf cs then
        if ['f', 'a', 'l', 's', 'e'].isPrefixOf cs then some (.jbool false, cs.drop 5) else none
      else if ['n'].isPrefixOf cs then
        if ['n', 'u', 'l', 'l'].isPrefixOf cs then some (.jnull, cs.drop 4) else none
      else if ['N', 'a', 'N'].isPrefixOf cs then some (.jnum "NaN", cs.drop 3)
      else if ['I', 'n', 'f', 'i', 'n', 'i', 't', 'y'].isPrefixOf cs then
        some (.jnum "Infinity", cs.drop 8)
      else if ['-', 'I', 'n', 'f', 'i', 'n', 'i', 't', 'y'].isPrefixOf cs then
        some (.jnum "-Infinity", cs.drop 9)
      else
        match parseJNum cs with
        | some (lx, r) => some (.jnum (String.mk lx), r)
        | none => none

/-- Parse the items of a JSON array after the opening bracket
(first item not yet consumed). -/
def parseJArrItems : Nat → List Char → List JVal → Option (JVal × List Char)
  | 0, _, _ => none
  | f + 1, cs, acc =>
    match parseJVal f cs with
    | none => none
    | some (v, r) =>
      let r₁ := skipWs r
      match r₁ with
      | ']' :: r₂ => some (.jarr (acc ++ [v]), r₂)
      | ',' :: r₂ => parseJArrItems f r₂ (acc ++ [v])
      | _ => none

/-- Parse the members of a JSON object after the opening brace
(first member not yet consumed). -/
def parseJObjItems : Nat → List Char → List (String × JVal) → Option (JVal × List Char)
  | 0, _, _ => none
  | f + 1, cs, acc =>
    let cs₁ := skipWs cs
    match cs₁ with
    | '"' :: r =>
      match parseJStr (r.length + 1) r with
      | none => none
      | some (k, r₁) =>
        let r₂ := skipWs r₁
        match r₂ with
        | ':' :: r₃ =>
          match parseJVal f r₃ with
          | none => none
          | some (v, r₄) =>
            let r₅ := skipWs r₄
            match r₅ with
            | '}' :: r₆ => some (.jobj (acc ++ [(String.mk k, v)]), r₆)
            | ',' :: r₆ => parseJObjItems f r₆ (acc ++ [(String.mk k, v)])
            | _ => none
        | _ => none
    | _ => none

end

/-- Model of `json.loads s`: `some v` when decoding succeeds with value
`v`, `none` when `json.loads` raises. -/
def json_loads (s : String) : Option JVal :=
  match parseJVal (s.data.length + 1) s.data with
  | none => none
  | some (v, rest) => if skipWs rest = [] then some v else none

/-- Whether the mantissa of a JSON number lexeme is zero (needed for
Python truthiness of decoded numbers: `0`, `0.000`, `-0.0e5` are falsy;
`NaN` and `Infinity`, whose lexemes carry no digit, are truthy). -/
def numIsZero (lex : String) : Bool :=
  let mantissa := lex.data.takeWhile (fun c => c ≠ 'e' && c ≠ 'E')
  mantissa.any (fun c => c.isDigit) && mantissa.all (fun c => !c.isDigit || c == '0')

/-- Python truthiness of a decoded JSON value (`if not value:`). -/
def pyTruthy : JVal → Bool
  | .jnull => false
  | .jbool b => b
  | .jnum lex => !numIsZero lex
  | .jstr s => s ≠ ""
  | .jarr xs => !xs.isEmpty
  | .jobj fs => !fs.isEmpty

/-- Python iteration over a decoded JSON value (`for x in value:`):
a list yields its elements, a string its one-character substrings, a dict
its keys; `None`, booleans and numbers are not iterable (`TypeError`,
modelled as `none`). -/
def pyIterElems : JVal → Option (List JVal)
  | .jarr xs => some xs
  | .jstr s => some (s.data.map (fun c => .jstr (String.mk [c])))
  | .jobj fs => some (fs.map (fun f => .jstr f.1))
  | _ => none

/-! ## Configuration constants (`Liqueur.py` lines 17–22)

`PACKAGES_DIR` is platform dependent in the source
(`C:/Liqueur_Packages` on Windows, `/Liqueur_Packages` elsewhere, and the
home directory under macOS SIP).  Its concrete value never influences the
verified control flow, so the model fixes the POSIX value; paths are
joined with `'/'` as `pathlib` does on POSIX. -/

def ALLOWED_ORG : String := "Liqueur-Manager"

def BASE_GITHUB_URL : String := "https://github.com"

def PACKAGES_DIR : String := "/Liqueur_Packages"

/-! ## Manifest parsing (`Liqueur.py` lines 94–143) -/

/-- The manifest record built by `parse_options`.  `dependencies` and
`commands` hold exactly what the Python code stores (lines 124 and 139):
the decoded `json.loads` value when decoding succeeds — any JSON value,
not only an array of strings; the consumers iterate it with Python
semantics — and the default empty Python list (`JVal.jarr []`)
otherwise. -/
structure Options where
  install_name : Option String
  launch_file : Option String
  autorun : Bool
  dependencies : JVal
  add_to_path : Bool
  downloadable : Bool
  official : Bool
  commands : JVal

/-- The literal defaults from `Liqueur.py` lines 95–104. -/
def defaultOptions : Options :=
  { install_name := none
    launch_file := none
    autorun := false
    dependencies := .jarr []
    add_to_path := false
    downloadable := true
    official := true
    commands := .jarr [] }

/-- The effective line sequence of `option.txt`
(`Liqueur.py` line 111): keep the lines that are non-blank BEFORE comment
stripping, then replace each by its text before the first `'#'`, stripped
of surrounding whitespace.  (`[line.split('#')[0].strip() for line in
f.readlines() if line.strip()]` filters on the raw line.) -/
def eff_lines (raw : List String) : List String :=
  (raw.filter (fun l => pyStrip l ≠ "")).map (fun l => pyStrip (takeUntilHash l))

/-- The value of a manifest JSON field (`Liqueur.py` lines 122–126 and
137–141): the decoded value when `json.loads` succeeds, the default empty
list when it raises (`except: pass`). -/
def jsonField (line : String) : JVal :=
  match json_loads line with
  | none => .jarr []
  | some v => v

/-- Python `s.strip().strip('"')` as applied to the `Name:`/`File:`
field payloads. -/
def stripQuoted (s : String) : String :=
  pyStripChars "\"" (pyStrip s)

/-- `parse_options` (`Liqueur.py` lines 94–143).  The argument is the
content of `pkg_path / option.txt` as a list of raw lines, or `none` when
the file does not exist. -/
def parse_options (file : Option (List String)) : Options :=
  match file with
  | none => defaultOptions
  | some raw =>
    let lines := eff_lines raw
    -- the eight guarded assignments of lines 113–141; each field depends
    -- only on its own line, so the sequential updates of the Python dict
    -- are rendered as independent field values
    { install_name :=
        if 0 < lines.length ∧ pyStartsWith (lines.getD 0 "") "Name:" then
          some (stripQuoted (pySplitGet1 "Name:" (lines.getD 0 "")))
        else none
      launch_file :=
        if 1 < lines.length ∧ pyStartsWith (lines.getD 1 "") "File:" then
          some (stripQuoted (pySplitGet1 "File:" (lines.getD 1 "")))
        else none
      autorun := if 2 < lines.length then pyIn "true" (pyLower (lines.getD 2 "")) else false
      dependencies := if 3 < lines.length then jsonField (lines.getD 3 "") else .jarr []
      add_to_path := if 4 < lines.length then pyIn "true" (pyLower (lines.getD 4 "")) else false
      downloadable := if 5 < lines.length then pyIn "true" (pyLower (lines.getD 5 "")) else true
      official := if 6 < lines.length then pyIn "true" (pyLower (lines.getD 6 "")) else true
      commands := if 7 < lines.length then jsonField (lines.getD 7 "") else .jarr [] }

/-! ## URL handling (`Liqueur.py` lines 270–282)

`pyUrlsplit` models `urllib.parse.urlparse` restricted to the two
attributes the program reads (`netloc` and `path`), following CPython's
`urlsplit`: strip leading/trailing C0-control-or-space characters, remove
tab/CR/LF everywhere, split off a syntactically valid scheme, take the
netloc after `"//"` up to the first `/?#` delimiter (raising `ValueError`,
modelled as `none`, on unbalanced square brackets), and the path up to
`?` or `#`. -/

def schemeChar (c : Char) : Bool :=
  c.isAlpha || c.isDigit || c = '+' || c = '-' || c = '.'

/-- `(netloc, path)` of `urlparse url`, or `none` when `urlparse` raises. -/
def pyUrlsplit (url : String) : Option (String × String) :=
  let cs := stripEnds (fun c => c.val ≤ 32) url.data
  let cs := cs.filter (fun c => c ∉ (['\t', '\r', '\n'] : List Char))
  let before := cs.takeWhile (fun c => c ≠ ':')
  let cs :=
    if before.length < cs.length ∧ 0 < before.length ∧
        (before.headD 'a').isAlpha ∧ before.all schemeChar then
      cs.drop (before.length + 1)
    else cs
  if ['/', '/'].isPrefixOf cs then
    let rest := cs.drop 2
    let netloc := rest.takeWhile (fun c => c ∉ (['/', '?', '#'] : List Char))
    if (netloc.contains '[' && !netloc.contains ']') ||
        (netloc.contains ']' && !netloc.contains '[') then none
    else
      let after := rest.drop netloc.length
      let path := after.takeWhile (fun c => c ∉ (['?', '#'] : List Char))
      some (String.mk netloc, String.mk path)
  else
    some ("", String.mk (cs.takeWhile (fun c => c ∉ (['?', '#'] : List Char))))

/-- `validate_repo_url` (`Liqueur.py` lines 270–276): the `try/except`
returns `False` when `urlparse` raises. -/
def validate_repo_url (repo_url : String) : Bool :=
  match pyUrlsplit repo_url with
  | none => false
  | some (netloc, path) =>
    pyEndsWith netloc "github.com" &&
      beforeFirstSlash (pyStripChars "/" path) == ALLOWED_ORG

/-- `normalize_repo_url` (`Liqueur.py` lines 279–282). -/
def normalize_repo_url (repo_input : String) : String :=
  if pyStartsWith repo_input "http://" || pyStartsWith repo_input "https://" then repo_input
  else BASE_GITHUB_URL ++ "/" ++ ALLOWED_ORG ++ "/" ++ repo_input

/-! ## The persisted registry (`packages.json`)

`get_installed_packages`/`save_package_info` read and rewrite a JSON
object keyed by package name.  The model keeps the decoded mapping as an
association list with Python `dict` semantics: insertion updates an
existing binding in place and otherwise appends. -/

structure Entry where
  repo_url : String
  path : String
  installed_at : String
deriving Repr, DecidableEq

abbrev Registry := List (String × Entry)

/-- Python `d[k]` lookup (`k in d` is `dictLookup k d ≠ none`). -/
def dictLookup (k : String) (l : Registry) : Option Entry :=
  (l.find? (fun p => p.1 == k)).map (fun p => p.2)

/-- Python `d[k] = v`: update in place if the key is bound, else append. -/
def dictInsert (k : String) (v : Entry) (l : Registry) : Registry :=
  if l.any (fun p => p.1 == k) then
    l.map (fun p => if p.1 == k then (k, v) else p)
  else l ++ [(k, v)]

/-- Python `del d[k]`. -/
def dictErase (k : String) (l : Registry) : Registry :=
  l.filter (fun p => p.1 ≠ k)

/-! ## Path arithmetic (`pathlib` fragments the program uses) -/

/-- The final component of a path string. -/
def pyFileName (p : String) : List Char :=
  (p.data.reverse.takeWhile (fun c => c ≠ '/')).reverse

/-- `Path(p).with_suffix(suffix)`: replace the suffix of the final
component (`suffix` of a name is its part from the last dot when that dot
is neither the first nor the last character). -/
def pyWithSuffix (p suffix : String) : String :=
  let cs := p.data
  let name := pyFileName p
  let dir := cs.take (cs.length - name.length)
  let after := (name.reverse.takeWhile (fun c => c ≠ '.')).length
  let stem :=
    if name.any (fun c => c = '.') ∧ 0 < after ∧ after < name.length - 1 then
      name.take (name.length - after - 1)
    else name
  String.mk (dir ++ stem) ++ suffix

/-- `str(Path(p).parent)`. -/
def pyParent (p : String) : String :=
  let cs := p.data
  let name := pyFileName p
  if name.length = cs.length then "."
  else
    let d := cs.take (cs.length - name.length - 1)
    if d = [] then "/" else String.mk d

/-- `str(Path(a) / b)`. -/
def pyJoin (a b : String) : String :=
  if a = "/" then a ++ b else a ++ "/" ++ b

/-! ## System state and observable effects

`Sys` is the state the program can observe and mutate: the decoded
registry mapping (`packages.json`), the set of existing filesystem paths,
the process working directory, and the current `time.strftime` timestamp
(constant within one call).  Each operation additionally produces a
chronological list of `Effect`s — the network requests, filesystem
mutations, subprocess invocations and registry writes it performs.
An org-repository dependency install appears as a single `depInstall`
node carrying the sub-install's own effect list, so that the effects a
function performs itself sit at the top level of its list. -/

structure Sys where
  registry : Registry
  paths : List String
  cwd : String
  now : String
deriving Repr, DecidableEq

inductive Effect where
  | netGet (url : String)
  | writeFile (p : String)
  | extract (zipPath dest : String)
  | renameDir (src dst : String)
  | unlink (p : String)
  | rmtree (p : String)
  | moveDir (src dst : String)
  | chdir (p : String)
  | runCmd (c : String)
  | pipInstall (d : String)
  | autostartAdd (name p : String)
  | startFile (p : String)
  | saveRegistry (reg : Registry)
  | depInstall (repoName : String) (sub : List Effect)

/-- Add a path to the existing-path set. -/
def addPath (p : String) (ps : List String) : List String :=
  if p ∈ ps then ps else p :: ps

/-! ## `download_repo` (`Liqueur.py` lines 221–245, `main.py` lines 22–49)

Environment data: whether the HTTP GET succeeds with a 2xx status
(`netOk`), whether the saved archive opens and extracts without raising
(`zipOk`), and whether the archive contained the expected
`{repo}-main` top-level directory (`hasMain`).

The two source variants differ only in the `except` block: `Liqueur.py`
guards the cleanup with `'zip_path' in locals()`, `main.py` evaluates
`zip_path.exists()` unconditionally — so when the failure happens before
`zip_path` is assigned (network error, non-2xx response), `main.py`
raises `NameError` out of the function instead of returning `False`. -/

structure DlWorld where
  netOk : Bool
  zipOk : Bool
  hasMain : Bool
deriving Repr, DecidableEq

/-- Result of a `download_repo` call: `ok`/`fail` are the `True`/`False`
returns, `exc` models an exception escaping the function. -/
inductive DlOut
  | ok
  | fail
  | exc
deriving Repr, DecidableEq

structure DlRes where
  out : DlOut
  sys : Sys
  tr : List Effect

/-- The fixed archive endpoint (`Liqueur.py` line 223): built from
`BASE_GITHUB_URL` and `ALLOWED_ORG` regardless of the validated URL. -/
def archive_url (repo_name : String) : String :=
  BASE_GITHUB_URL ++ "/" ++ ALLOWED_ORG ++ "/" ++ repo_name ++ "/archive/refs/heads/main.zip"

/-- Common body of both `download_repo` variants; `guard` is `true` for
the `Liqueur.py` variant (`'zip_path' in locals()` check present). -/
def download_repo_core (guard : Bool) (w : DlWorld) (repo_name target_dir : String)
    (s : Sys) : DlRes :=
  let url := archive_url repo_name
  if ¬ w.netOk then
    -- `requests.get`/`raise_for_status` raised before `zip_path` exists
    if guard then ⟨.fail, s, [.netGet url]⟩
    else ⟨.exc, s, [.netGet url]⟩
  else
    let zip := pyWithSuffix target_dir ".zip"
    let s₁ : Sys := { s with paths := addPath zip s.paths }
    if ¬ w.zipOk then
      -- `ZipFile`/`extractall` raised; the handler unlinks the archive
      ⟨.fail, { s₁ with paths := s₁.paths.erase zip },
        [.netGet url, .writeFile zip, .unlink zip]⟩
    else
      let parent := pyParent target_dir
      let extracted := pyJoin parent (repo_name ++ "-main")
      if w.hasMain then
        let s₂ : Sys := { s₁ with paths := addPath target_dir ((addPath extracted s₁.paths).erase extracted) }
        ⟨.ok, { s₂ with paths := s₂.paths.erase zip },
          [.netGet url, .writeFile zip, .extract zip parent,
            .renameDir extracted target_dir, .unlink zip]⟩
      else
        -- missing expected directory: no rename, yet still `return True`
        ⟨.ok, { s₁ with paths := s₁.paths.erase zip },
          [.netGet url, .writeFile zip, .extract zip parent, .unlink zip]⟩

/-- `download_repo` of `Liqueur.py` (lines 221–245). -/
def download_repo (w : DlWorld) (repo_name target_dir : String) (s : Sys) : DlRes :=
  download_repo_core true w repo_name target_dir s

/-- `download_repo` of `main.py` (lines 22–49): no `'zip_path' in locals()`
guard in the handler. -/
def download_repo_main (w : DlWorld) (repo_name target_dir : String) (s : Sys) : DlRes :=
  download_repo_core false w repo_name target_dir s

/-! ## Install worlds

`FlatWorld` collects the environment choices one `install_package`
invocation can observe: the download environment, the content of the
fetched package's `option.txt` (`none` = absent), the interactive answers
(`confirmUnofficial`, `confirmDanger` — `True` iff the operator types
`y`), whether the declared launch file exists in the target directory,
and whether launching it raises (`os.startfile`/opener failure).
`WorldTree` additionally carries one world per recursive
org-repository dependency install, in dependency order. -/

structure FlatWorld where
  dl : DlWorld
  optionFile : Option (List String)
  confirmUnofficial : Bool
  confirmDanger : Bool
  launchExists : Bool
  launchRaises : Bool
deriving Repr, DecidableEq

inductive WorldTree where
  | node (data : FlatWorld) (deps : List WorldTree)

/-- The world in which every environment interaction fails or is absent;
used when a dependency install has no world assigned. -/
def defaultFlatWorld : FlatWorld :=
  ⟨⟨false, false, false⟩, none, false, false, false, false⟩

def defaultWorld : WorldTree := .node defaultFlatWorld []

/-- Outcome of one `install_package` call.  The function itself always
returns `None` in Python; the constructors record which exit the body
took.  `exc` is the top-level `except Exception` handler; `recursionLimit`
models `RecursionError` raised at the call site when the interpreter's
recursion limit (the `fuel` argument) is exhausted. -/
inductive Outcome
  | success
  | validationFailed
  | downloadFailed
  | declinedUnofficial
  | notDownloadable
  | conflict
  | exc
  | recursionLimit
deriving Repr, DecidableEq

structure IResult where
  sys : Sys
  tr : List Effect
  outcome : Outcome

/-- Python truthiness of an optional string (`None` and `""` are falsy). -/
def pyTruthyOpt : Option String → Bool
  | none => false
  | some s => s ≠ ""

/-- Python `a or b` where `a` is an optional string. -/
def pyOrS (a : Option String) (b : String) : String :=
  match a with
  | none => b
  | some s => if s = "" then b else s

/-- A command containing a recognized destructive keyword triggers the
interactive confirmation (`Liqueur.py` line 314). -/
def isDangerous (cmd : String) : Bool :=
  (["rm", "del", "format", "taskkill"] : List String).any (fun d => pyIn d (pyLower cmd))

/-- Effects of the command loop of `execute_commands`
(`Liqueur.py` lines 311–321) over the decoded command elements: a
dangerous command the operator declines is skipped, every other string
command is run; a failing command — including the `AttributeError` that
`cmd.lower()` raises on a non-string element — is caught by the
per-command `except Exception` handler and logged, and the loop
continues; subprocesses act on the external environment, outside
`Sys`. -/
def runCmds (confirmDanger : Bool) : List JVal → List Effect
  | [] => []
  | v :: cs =>
    (match v with
      | .jstr c => if isDangerous c && !confirmDanger then [] else [Effect.runCmd c]
      | _ => []) ++
      runCmds confirmDanger cs

/-- Result of `execute_commands`: final state, effects, and whether an
exception escaped the function (the `for` statement's `TypeError` on a
non-iterable command value — raised after `os.chdir`). -/
structure ExecRes where
  sys : Sys
  tr : List Effect
  raised : Bool

/-- `execute_commands` (`Liqueur.py` lines 304–321): `if not commands:
return` on a falsy value, otherwise `os.chdir(pkg_path)` — never
restored — then the `for` loop over the decoded value: `TypeError`
escapes on a non-iterable value, everything inside the loop body is
caught per command. -/
def execute_commands (confirmDanger : Bool) (commands : JVal) (pkg_path : String)
    (s : Sys) : ExecRes :=
  if ¬ pyTruthy commands then ⟨s, [], false⟩
  else
    match pyIterElems commands with
    | none => ⟨{ s with cwd := pkg_path }, [Effect.chdir pkg_path], true⟩
    | some items =>
      ⟨{ s with cwd := pkg_path }, Effect.chdir pkg_path :: runCmds confirmDanger items, false⟩

/-- `save_package_info` (`Liqueur.py` lines 293–301): load the registry,
bind `name` to a fresh entry (overwriting any existing binding), and
rewrite `packages.json`. -/
def save_package_info (name repo_url : String) (s : Sys) : Sys :=
  { s with registry :=
      dictInsert name ⟨repo_url, PACKAGES_DIR ++ "/" ++ name, s.now⟩ s.registry }

/-- Result of `install_dependencies`: final state, effects, and whether an
exception (`RecursionError` from a recursive install at the interpreter
limit) escaped the function into the caller's handler.  All other
failures are caught inside `install_dependencies` itself. -/
structure DepRes where
  sys : Sys
  tr : List Effect
  raised : Bool

/-- The `for dep in dependencies:` loop of `install_dependencies`
(`Liqueur.py` lines 157–219), parameterized by the recursive installer
`inst` (`install_package` at the remaining fuel), over the decoded
elements.  A non-string element raises `AttributeError` at `dep.lower()`
(line 160); the per-dependency handler catches only
`subprocess.CalledProcessError` (line 197), so the exception escapes into
the caller's handler.  For string elements: `python` is skipped;
`pyqt6`/`pyqt6-tools` and plain names are delegated to pip (external
environment; failures caught at lines 197–219, recorded as a single
`pipInstall` effect); an `"Liqueur-Manager/…"` dependency recurses into
`install_package`, whose own handler absorbs its failures.  `ws` assigns
a world to each org-dependency in order. -/
def install_deps_loop
    (inst : WorldTree → Sys → String → Option String → IResult) :
    List JVal → List WorldTree → Sys → DepRes
  | [], _, s => ⟨s, [], false⟩
  | v :: ds, ws, s =>
    match v with
    | .jstr dep =>
      if pyLower dep = "python" then install_deps_loop inst ds ws s
      else if pyLower dep = "pyqt6" || pyLower dep = "pyqt6-tools" then
        let tr := [Effect.pipInstall "PyQt6"] ++
          (if pyLower dep = "pyqt6-tools" then [Effect.pipInstall "pyqt6-tools"] else [])
        let r := install_deps_loop inst ds ws s
        ⟨r.sys, tr ++ r.tr, r.raised⟩
      else if pyStartsWith dep (ALLOWED_ORG ++ "/") then
        let repoName := pySplitSlashGet1 dep
        let w := ws.headD defaultWorld
        let sub := inst w s repoName none
        if sub.outcome = .recursionLimit then
          ⟨sub.sys, [Effect.depInstall repoName sub.tr], true⟩
        else
          let r := install_deps_loop inst ds (ws.drop 1) sub.sys
          ⟨r.sys, Effect.depInstall repoName sub.tr :: r.tr, r.raised⟩
      else
        let r := install_deps_loop inst ds ws s
        ⟨r.sys, Effect.pipInstall dep :: r.tr, r.raised⟩
    | _ => ⟨s, [], true⟩

/-- `install_dependencies` (`Liqueur.py` lines 146–219): `if not
dependencies: return` on a falsy decoded value; the `for` statement
raises `TypeError` out of the function on a non-iterable value; otherwise
the loop above runs. -/
def install_dependencies
    (inst : WorldTree → Sys → String → Option String → IResult)
    (dependencies : JVal) (ws : List WorldTree) (s : Sys) : DepRes :=
  if ¬ pyTruthy dependencies then ⟨s, [], false⟩
  else
    match pyIterElems dependencies with
    | none => ⟨s, [], true⟩
    | some items => install_deps_loop inst items ws s

/-- The top-level `except Exception` handler of `install_package`
(lines 385–388): report, then remove the temp directory (ignoring errors)
if it still exists. -/
def handlerExc (s : Sys) (tr : List Effect) (temp : String) : IResult :=
  if temp ∈ s.paths then
    ⟨{ s with paths := s.paths.erase temp }, tr ++ [.rmtree temp], .exc⟩
  else ⟨s, tr, .exc⟩

/-- The steps of `install_package` after the successful
`shutil.move(temp_dir, target_dir)` (`Liqueur.py` lines 364–383):
dependency installation, autostart registration, command execution,
launch, and finally the registry commit.  `inst` is the recursive
installer (`install_package` at the remaining fuel), `s` the state after
the move and `tr` the effects up to and including it. -/
def install_post_move (inst : WorldTree → Sys → String → Option String → IResult)
    (d : FlatWorld) (deps : List WorldTree) (options : Options)
    (pkg_name repo_url temp_dir target_dir : String) (s : Sys) (tr : List Effect) : IResult :=
  let dr := install_dependencies inst options.dependencies deps s
  let tr₃ := tr ++ dr.tr
  if dr.raised then handlerExc dr.sys tr₃ temp_dir
  else
    let tr₄ := tr₃ ++
      (if options.autorun && pyTruthyOpt options.launch_file && d.launchExists then
        [.autostartAdd pkg_name (pyJoin target_dir (options.launch_file.getD ""))]
      else [])
    let er := execute_commands d.confirmDanger options.commands target_dir dr.sys
    let tr₅ := tr₄ ++ er.tr
    if er.raised then handlerExc er.sys tr₅ temp_dir
    else if pyTruthyOpt options.launch_file && d.launchExists && d.launchRaises then
      handlerExc er.sys tr₅ temp_dir
    else
      let tr₆ := tr₅ ++
        (if pyTruthyOpt options.launch_file && d.launchExists then
          [.startFile (pyJoin target_dir (options.launch_file.getD ""))]
        else [])
      let s₂ := save_package_info pkg_name repo_url er.sys
      ⟨s₂, tr₆ ++ [.saveRegistry s₂.registry], .success⟩

/-- The steps of `install_package` from the return of `download_repo`
(`Liqueur.py` lines 338–363): manifest parsing, the unofficial and
non-downloadable gates, name resolution, the conflict check, and the
move into place.  `dl` is the download result and `tr₁` the effects so
far (stale-temp cleanup and download). -/
def install_after_download (inst : WorldTree → Sys → String → Option String → IResult)
    (d : FlatWorld) (deps : List WorldTree) (repo_name repo_url temp_dir : String)
    (name : Option String) (dl : DlRes) (tr₁ : List Effect) : IResult :=
  if dl.out ≠ .ok then ⟨dl.sys, tr₁, .downloadFailed⟩
  else
    let options := parse_options (if d.dl.hasMain then d.optionFile else none)
    if ¬ options.official ∧ ¬ d.confirmUnofficial then
      -- unofficial and declined: `shutil.rmtree(temp_dir)` then return
      if temp_dir ∈ dl.sys.paths then
        ⟨{ dl.sys with paths := dl.sys.paths.erase temp_dir },
          tr₁ ++ [.rmtree temp_dir], .declinedUnofficial⟩
      else handlerExc dl.sys tr₁ temp_dir
    else if ¬ options.downloadable then
      if temp_dir ∈ dl.sys.paths then
        ⟨{ dl.sys with paths := dl.sys.paths.erase temp_dir },
          tr₁ ++ [.rmtree temp_dir], .notDownloadable⟩
      else handlerExc dl.sys tr₁ temp_dir
    else
      let pkg_name := pyOrS name (pyOrS options.install_name repo_name)
      let target_dir := PACKAGES_DIR ++ "/" ++ pkg_name
      if target_dir ∈ dl.sys.paths then
        if temp_dir ∈ dl.sys.paths then
          ⟨{ dl.sys with paths := dl.sys.paths.erase temp_dir },
            tr₁ ++ [.rmtree temp_dir], .conflict⟩
        else handlerExc dl.sys tr₁ temp_dir
      else if temp_dir ∉ dl.sys.paths then
        -- `shutil.move` raises when the staging directory is missing
        handlerExc dl.sys tr₁ temp_dir
      else
        install_post_move inst d deps options pkg_name repo_url temp_dir target_dir
          { dl.sys with paths := addPath target_dir (dl.sys.paths.erase temp_dir) }
          (tr₁ ++ [.moveDir temp_dir target_dir])

/-- `install_package` (`Liqueur.py` lines 324–388).  `fuel` bounds the
recursion depth through dependency installs, modelling the interpreter's
recursion limit; `w` supplies the environment for this call and its
recursive dependency installs.  The body is split into the staged
helpers above along the source's own phases. -/
def install_package : Nat → WorldTree → Sys → String → Option String → IResult
  | 0, _, s, _, _ => ⟨s, [], .recursionLimit⟩
  | fuel + 1, .node d deps, s, repo_input, name =>
    let repo_url := normalize_repo_url repo_input
    if validate_repo_url repo_url then
      let repo_name := afterLastSlash repo_url
      let temp_dir := PACKAGES_DIR ++ "/temp_" ++ repo_name
      -- stale staging directory from a previous failed attempt
      let st₀ : Sys × List Effect :=
        if temp_dir ∈ s.paths then ({ s with paths := s.paths.erase temp_dir }, [.rmtree temp_dir])
        else (s, [])
      let dl := download_repo d.dl repo_name temp_dir st₀.1
      install_after_download (install_package fuel) d deps repo_name repo_url temp_dir name dl
        (st₀.2 ++ dl.tr)
    else ⟨s, [], .validationFailed⟩

/-! ## `force_remove` (`Liqueur.py` lines 248–267)

The tree under the path is a list of entries (files and directories
alike — `os.walk` visits both and both get `chmod(stat.S_IWRITE)`).
An entry blocks the strict `shutil.rmtree` while it is read-only or
transiently locked; `lockedUntil` is the strict-attempt index from which
the transient lock (antivirus scan, closing handle) has cleared.  The
post-retry `shutil.rmtree(path, ignore_errors=True)` suppresses every
per-entry error, so it completes without raising and the function returns
`True`; the trailing `return False` would require that call itself to
raise. -/

structure Ent where
  path : String
  writable : Bool
  lockedUntil : Nat
deriving Repr, DecidableEq

inductive REvent where
  | chmod (p : String)
  | strictAttempt (snapshot : List Ent)
  | sleepRetry
  | fallbackAttempt (snapshot : List Ent)
deriving Repr, DecidableEq

/-- The `os.walk` pass of one attempt: `chmod(stat.S_IWRITE)` on every
entry sets its writable bit (the source sets the mode to exactly
`S_IWRITE`; only the writable bit matters to deletion). -/
def chmodAll (fs : List Ent) : List Ent :=
  fs.map (fun e => { e with writable := true })

/-- Whether the strict `shutil.rmtree` at attempt index `t` succeeds:
every entry must be writable and no longer locked. -/
def rmtreeOk (fs : List Ent) (t : Nat) : Bool :=
  fs.all (fun e => e.writable && decide (e.lockedUntil ≤ t))

structure RResult where
  ok : Bool
  events : List REvent
deriving Repr, DecidableEq

/-- The `for attempt in range(retries)` loop of `force_remove`:
walk-and-chmod, strict delete, sleep on failure. -/
def force_remove_loop (fs : List Ent) (t : Nat) : Nat → Bool × List Ent × List REvent
  | 0 => (false, fs, [])
  | n + 1 =>
    let fs' := chmodAll fs
    let evs := fs.map (fun e => REvent.chmod e.path) ++ [REvent.strictAttempt fs']
    if rmtreeOk fs' t then (true, fs', evs)
    else
      let r := force_remove_loop fs' (t + 1) n
      (r.1, r.2.1, evs ++ REvent.sleepRetry :: r.2.2)

/-- `force_remove` (`Liqueur.py` lines 248–267); `fs` is the tree under
`path`, `retries` the `retries` parameter (Python default 3). -/
def force_remove (fs : List Ent) (retries : Nat) : RResult :=
  let r := force_remove_loop fs 0 retries
  if r.1 then ⟨true, r.2.2⟩
  else ⟨true, r.2.2 ++ [REvent.fallbackAttempt r.2.1]⟩

/-! ## `uninstall_package` (`Liqueur.py` lines 391–418) -/

inductive UOutcome
  | notFound
  | alreadyClean
  | removed
  | failed
deriving Repr, DecidableEq

structure UResult where
  registry : Registry
  paths : List String
  outcome : UOutcome
deriving Repr, DecidableEq

/-- `uninstall_package`: registry lookup, best-effort autostart removal
(result ignored), already-clean shortcut when the recorded path no longer
exists, otherwise `force_remove` (with its default retry budget,
kept general here as `retries`) and, on success, registry update.
`tree` is the filesystem tree under the package's recorded path. -/
def uninstall_package (s : Sys) (tree : List Ent) (retries : Nat) (name : String) : UResult :=
  match dictLookup name s.registry with
  | none => ⟨s.registry, s.paths, .notFound⟩
  | some e =>
    if e.path ∈ s.paths then
      if (force_remove tree retries).ok then
        ⟨dictErase name s.registry, s.paths.erase e.path, .removed⟩
      else ⟨s.registry, s.paths, .failed⟩
    else ⟨dictErase name s.registry, s.paths, .alreadyClean⟩

/-! ## The spec's description of the effective line sequence (claim C6)

For comparison with `eff_lines` (the translation of the code), this is
the sequence the specification describes: "read the option file as a
sequence of lines; strip a trailing comment introduced by `#`; drop blank
lines; the remaining lines are positional" — i.e. comment-strip first,
then drop the lines that are blank after that stripping. -/
def spec_effective_lines (raw : List String) : List String :=
  (raw.map (fun l => pyStrip (takeUntilHash l))).filter (fun l => l ≠ "")

/-- The paths an effect deletes or moves away (the destructive side of
the trace; creations are not listed). -/
def destroys : Effect → List String
  | .rmtree p => [p]
  | .unlink p => [p]
  | .moveDir src _ => [src]
  | .renameDir src _ => [src]
  | _ => []

/-! ## Basic lemmas about the state model -/

theorem mem_addPath_iff {p q : String} {l : List String} (h : p ≠ q) :
    p ∈ addPath q l ↔ p ∈ l := by
  unfold addPath
  split
  · exact Iff.rfl
  · simp [h]

theorem mem_addPath_self (q : String) (l : List String) : q ∈ addPath q l := by
  unfold addPath
  split
  · assumption
  · exact List.mem_cons_self q l

/-- `dictInsert` then lookup of the same key yields the inserted value. -/
theorem dictLookup_dictInsert (k : String) (v : Entry) (l : Registry) :
    dictLookup k (dictInsert k v l) = some v := by
  unfold dictInsert
  split
  case isTrue hany =>
    unfold dictLookup
    induction l with
    | nil => simp at hany
    | cons a as ih =>
      by_cases hk : a.1 = k
      · simp [hk]
      · have : as.any (fun p => p.1 == k) = true := by
          simpa [hk] using hany
        simpa [hk] using ih this
  case isFalse hany =>
    unfold dictLookup
    induction l with
    | nil => simp
    | cons a as ih =>
      have hk : ¬ a.1 = k := by
        intro hc
        exact hany (by simp [List.any_cons, hc])
      have : ¬ as.any (fun p => p.1 == k) = true := by
        intro hc
        exact hany (by simp [List.any_cons, hc])
      simpa [hk] using ih this

/-! ## Lemmas about `download_repo` -/

theorem download_registry_eq (g : Bool) (w : DlWorld) (rn t : String) (s : Sys) :
    (download_repo_core g w rn t s).sys.registry = s.registry := by
  simp only [download_repo_core]
  repeat' split
  all_goals rfl

theorem download_cwd_eq (g : Bool) (w : DlWorld) (rn t : String) (s : Sys) :
    (download_repo_core g w rn t s).sys.cwd = s.cwd := by
  simp only [download_repo_core]
  repeat' split
  all_goals rfl

theorem download_now_eq (g : Bool) (w : DlWorld) (rn t : String) (s : Sys) :
    (download_repo_core g w rn t s).sys.now = s.now := by
  simp only [download_repo_core]
  repeat' split
  all_goals rfl

theorem download_out_eq_ok (g : Bool) (w : DlWorld) (rn t : String) (s : Sys)
    (hnet : w.netOk = true) (hzip : w.zipOk = true) :
    (download_repo_core g w rn t s).out = .ok := by
  simp [download_repo_core, hnet, hzip]
  split
  all_goals rfl

/-- After a fully successful download with the expected top-level
directory, the destination exists. -/
theorem download_target_mem (g : Bool) (w : DlWorld) (rn t : String) (s : Sys)
    (hnet : w.netOk = true) (hzip : w.zipOk = true) (hmain : w.hasMain = true)
    (hzt : t ≠ pyWithSuffix t ".zip") :
    t ∈ (download_repo_core g w rn t s).sys.paths := by
  simp only [download_repo_core, hnet, hzip, hmain, not_true, Bool.not_true,
    Bool.false_eq_true, if_false, ite_false, ite_true]
  exact (List.mem_erase_of_ne hzt).mpr (mem_addPath_self t _)

/-- A path distinct from the staging directory, its zip archive and the
extracted directory exists after the download exactly when it existed
before. -/
theorem download_mem_iff (g : Bool) (w : DlWorld) (rn t : String) (s : Sys) (p : String)
    (hpt : p ≠ t) (hpz : p ≠ pyWithSuffix t ".zip")
    (hpe : p ≠ pyJoin (pyParent t) (rn ++ "-main")) :
    (p ∈ (download_repo_core g w rn t s).sys.paths ↔ p ∈ s.paths) := by
  simp only [download_repo_core]
  by_cases hnet : w.netOk = true
  · by_cases hzip : w.zipOk = true
    · by_cases hmain : w.hasMain = true
      · simp [hnet, hzip, hmain, List.mem_erase_of_ne hpz, List.mem_erase_of_ne hpe,
          mem_addPath_iff hpt, mem_addPath_iff hpe, mem_addPath_iff hpz]
      · simp [hnet, hzip, hmain, List.mem_erase_of_ne hpz, mem_addPath_iff hpz]
    · simp [hnet, hzip, List.mem_erase_of_ne hpz, mem_addPath_iff hpz]
  · simp only [hnet, Bool.false_eq_true, not_false_iff, ite_true, if_true]
    cases g
    all_goals simp

/-- The registry is never written from within `download_repo`. -/
theorem download_no_save (g : Bool) (w : DlWorld) (rn t : String) (s : Sys)
    (reg : Registry) : Effect.saveRegistry reg ∉ (download_repo_core g w rn t s).tr := by
  simp only [download_repo_core]
  repeat' split
  all_goals intro hmem
  all_goals simp at hmem

/-- Every path a `download_repo` effect destroys is a staging artifact:
the zip archive or the extracted `-main` directory. -/
theorem download_destroys (g : Bool) (w : DlWorld) (rn t : String) (s : Sys) :
    ∀ e ∈ (download_repo_core g w rn t s).tr, ∀ p ∈ destroys e,
      p = pyWithSuffix t ".zip" ∨ p = pyJoin (pyParent t) (rn ++ "-main") := by
  simp only [download_repo_core]
  repeat' split
  all_goals intro e he
  all_goals simp only [List.mem_cons, List.mem_singleton, List.not_mem_nil, or_false] at he
  all_goals rcases he with rfl | he
  all_goals try simp [destroys]
  all_goals rcases he with rfl | he
  all_goals try simp [destroys]
  all_goals rcases he with rfl | he
  all_goals try simp [destroys]
  all_goals rcases he with rfl | rfl
  all_goals simp [destroys]

/-! ## Lemmas about `install_dependencies`, `execute_commands`, `handlerExc` -/

theorem runCmds_no_save (b : Bool) (cs : List JVal) (reg : Registry) :
    Effect.saveRegistry reg ∉ runCmds b cs := by
  induction cs with
  | nil => simp [runCmds]
  | cons c cs ih =>
    simp only [runCmds, List.mem_append]
    rintro (h | h)
    · revert h
      split
      · split <;> simp
      · simp
    · exact ih h

/-- The registry is never written at the top level of the dependency
loop's trace: recursive installs' writes sit inside `depInstall`
nodes. -/
theorem install_deps_loop_no_save
    (inst : WorldTree → Sys → String → Option String → IResult)
    (items : List JVal) (ws : List WorldTree) (s : Sys) (reg : Registry) :
    Effect.saveRegistry reg ∉ (install_deps_loop inst items ws s).tr := by
  induction items generalizing ws s with
  | nil => simp [install_deps_loop]
  | cons v ds ih =>
    simp only [install_deps_loop]
    split
    · split
      · exact ih ws s
      · split
        · intro h
          rcases List.mem_append.mp h with h | h
          · rcases List.mem_append.mp h with h | h
            · simp at h
            · split at h
              all_goals simp at h
          · exact ih ws s h
        · split
          · split
            · intro h
              simp at h
            · intro h
              rcases List.mem_cons.mp h with h | h
              · simp at h
              · exact ih (ws.drop 1) _ h
          · intro h
            rcases List.mem_cons.mp h with h | h
            · simp at h
            · exact ih ws s h
    · simp

/-- The registry is never written at the top level of the
`install_dependencies` trace. -/
theorem install_dependencies_no_save
    (inst : WorldTree → Sys → String → Option String → IResult)
    (ds : JVal) (ws : List WorldTree) (s : Sys) (reg : Registry) :
    Effect.saveRegistry reg ∉ (install_dependencies inst ds ws s).tr := by
  unfold install_dependencies
  split
  · simp
  · split
    · simp
    · exact install_deps_loop_no_save inst _ ws s reg

theorem execute_commands_registry (b : Bool) (cs : JVal) (p : String) (s : Sys) :
    (execute_commands b cs p s).sys.registry = s.registry := by
  unfold execute_commands
  split
  · rfl
  · split <;> rfl

theorem execute_commands_now (b : Bool) (cs : JVal) (p : String) (s : Sys) :
    (execute_commands b cs p s).sys.now = s.now := by
  unfold execute_commands
  split
  · rfl
  · split <;> rfl

theorem execute_commands_no_save (b : Bool) (cs : JVal) (p : String) (s : Sys)
    (reg : Registry) : Effect.saveRegistry reg ∉ (execute_commands b cs p s).tr := by
  unfold execute_commands
  split
  · simp
  · split
    · simp
    · intro h
      rcases List.mem_cons.mp h with h | h
      · cases h
      · exact runCmds_no_save b _ reg h

/-- Whenever the command value is truthy, `os.chdir(pkg_path)` runs
before the loop, so the working directory ends at the package path even
when iterating the value raises. -/
theorem execute_commands_cwd (b : Bool) (cs : JVal) (p : String) (s : Sys)
    (h : pyTruthy cs = true) : (execute_commands b cs p s).sys.cwd = p := by
  unfold execute_commands
  rw [if_neg (by simp [h])]
  split <;> rfl

theorem handlerExc_outcome (s : Sys) (tr : List Effect) (temp : String) :
    (handlerExc s tr temp).outcome = .exc := by
  unfold handlerExc
  split <;> rfl

theorem handlerExc_registry (s : Sys) (tr : List Effect) (temp : String) :
    (handlerExc s tr temp).sys.registry = s.registry := by
  unfold handlerExc
  split <;> rfl

theorem handlerExc_no_save (s : Sys) (tr : List Effect) (temp : String) (reg : Registry)
    (h : Effect.saveRegistry reg ∉ tr) :
    Effect.saveRegistry reg ∉ (handlerExc s tr temp).tr := by
  unfold handlerExc
  split
  · intro hmem
    simp only [List.mem_append, List.mem_singleton] at hmem
    rcases hmem with hmem | hmem
    · exact h hmem
    · cases hmem
  · exact h

/-! ## Branch lemmas about `install_package` -/

theorem handlerExc_cwd (s : Sys) (tr : List Effect) (temp : String) :
    (handlerExc s tr temp).sys.cwd = s.cwd := by
  unfold handlerExc
  split <;> rfl

/-- `install_post_move` exits either through the registry commit
(success) or through the exception handler. -/
theorem install_post_move_outcome
    (inst : WorldTree → Sys → String → Option String → IResult) (d : FlatWorld)
    (deps : List WorldTree) (options : Options) (pn ru td tg : String) (s : Sys)
    (tr : List Effect) :
    (install_post_move inst d deps options pn ru td tg s tr).outcome = .success ∨
    (install_post_move inst d deps options pn ru td tg s tr).outcome = .exc := by
  simp only [install_post_move]
  split
  · right
    exact handlerExc_outcome _ _ _
  · split
    · right
      exact handlerExc_outcome _ _ _
    · split
      · right
        exact handlerExc_outcome _ _ _
      · left
        rfl

/-- The phase after the move never exits through one of the explicit
abort returns of the earlier phases. -/
theorem install_post_move_not_abort
    (inst : WorldTree → Sys → String → Option String → IResult) (d : FlatWorld)
    (deps : List WorldTree) (options : Options) (pn ru td tg : String) (s : Sys)
    (tr : List Effect) :
    ¬ ((install_post_move inst d deps options pn ru td tg s tr).outcome = .validationFailed ∨
       (install_post_move inst d deps options pn ru td tg s tr).outcome = .downloadFailed ∨
       (install_post_move inst d deps options pn ru td tg s tr).outcome = .declinedUnofficial ∨
       (install_post_move inst d deps options pn ru td tg s tr).outcome = .notDownloadable ∨
       (install_post_move inst d deps options pn ru td tg s tr).outcome = .conflict) := by
  rcases install_post_move_outcome inst d deps options pn ru td tg s tr with h | h <;>
    rw [h] <;> simp

/-- The effects of the pre-move phase are a prefix of the effects of the
whole post-move phase. -/
theorem install_post_move_tr_prefix
    (inst : WorldTree → Sys → String → Option String → IResult) (d : FlatWorld)
    (deps : List WorldTree) (options : Options) (pn ru td tg : String) (s : Sys)
    (tr : List Effect) :
    ∃ rest, (install_post_move inst d deps options pn ru td tg s tr).tr = tr ++ rest := by
  simp only [install_post_move, handlerExc, List.append_assoc]
  repeat' split
  all_goals exact ⟨_, rfl⟩

/-- When the post-move phase does not commit, no registry write appears
at the top level of its trace. -/
theorem install_post_move_no_save
    (inst : WorldTree → Sys → String → Option String → IResult) (d : FlatWorld)
    (deps : List WorldTree) (options : Options) (pn ru td tg : String) (s : Sys)
    (tr : List Effect)
    (hne : ∀ reg, Effect.saveRegistry reg ∉ tr)
    (h : (install_post_move inst d deps options pn ru td tg s tr).outcome ≠ .success) :
    ∀ reg, Effect.saveRegistry reg ∉ (install_post_move inst d deps options pn ru td tg s tr).tr := by
  revert h
  simp only [install_post_move]
  split
  · intro h reg
    apply handlerExc_no_save
    intro hm
    rcases List.mem_append.mp hm with hm | hm
    · exact hne reg hm
    · exact install_dependencies_no_save _ _ _ _ _ hm
  · split
    · intro h reg
      apply handlerExc_no_save
      intro hm
      rcases List.mem_append.mp hm with hm | hm
      · rcases List.mem_append.mp hm with hm | hm
        · rcases List.mem_append.mp hm with hm | hm
          · exact hne reg hm
          · exact install_dependencies_no_save _ _ _ _ _ hm
        · revert hm
          split <;> simp
      · exact execute_commands_no_save _ _ _ _ _ hm
    · split
      · intro h reg
        apply handlerExc_no_save
        intro hm
        rcases List.mem_append.mp hm with hm | hm
        · rcases List.mem_append.mp hm with hm | hm
          · rcases List.mem_append.mp hm with hm | hm
            · exact hne reg hm
            · exact install_dependencies_no_save _ _ _ _ _ hm
          · revert hm
            split <;> simp
        · exact execute_commands_no_save _ _ _ _ _ hm
      · intro h
        exact absurd rfl h

/-- When the post-move phase commits, the registry write is the final
effect of the call's trace and the only one at its top level. -/
theorem install_post_move_success_shape
    (inst : WorldTree → Sys → String → Option String → IResult) (d : FlatWorld)
    (deps : List WorldTree) (options : Options) (pn ru td tg : String) (s : Sys)
    (tr : List Effect)
    (hne : ∀ reg, Effect.saveRegistry reg ∉ tr)
    (h : (install_post_move inst d deps options pn ru td tg s tr).outcome = .success) :
    ∃ pre, (install_post_move inst d deps options pn ru td tg s tr).tr =
        pre ++ [Effect.saveRegistry
          (install_post_move inst d deps options pn ru td tg s tr).sys.registry] ∧
      ∀ reg, Effect.saveRegistry reg ∉ pre := by
  revert h
  simp only [install_post_move]
  split
  · intro h
    rw [handlerExc_outcome] at h
    simp at h
  · split
    · intro h
      rw [handlerExc_outcome] at h
      simp at h
    · split
      · intro h
        rw [handlerExc_outcome] at h
        simp at h
      · intro h
        refine ⟨_, rfl, ?_⟩
        intro reg hm
        rcases List.mem_append.mp hm with hm | hm
        · rcases List.mem_append.mp hm with hm | hm
          · rcases List.mem_append.mp hm with hm | hm
            · rcases List.mem_append.mp hm with hm | hm
              · exact hne reg hm
              · exact install_dependencies_no_save _ _ _ _ _ hm
            · revert hm
              split <;> simp
          · exact execute_commands_no_save _ _ _ _ _ hm
        · revert hm
          split <;> simp

/-- On every abort exit of `install_after_download`, the registry is the
one the download phase returned. -/
theorem install_after_download_abort_registry
    (inst : WorldTree → Sys → String → Option String → IResult) (d : FlatWorld)
    (deps : List WorldTree) (rn ru td : String) (nm : Option String) (dl : DlRes)
    (tr₁ : List Effect)
    (h : (install_after_download inst d deps rn ru td nm dl tr₁).outcome = .validationFailed ∨
         (install_after_download inst d deps rn ru td nm dl tr₁).outcome = .downloadFailed ∨
         (install_after_download inst d deps rn ru td nm dl tr₁).outcome = .declinedUnofficial ∨
         (install_after_download inst d deps rn ru td nm dl tr₁).outcome = .notDownloadable ∨
         (install_after_download inst d deps rn ru td nm dl tr₁).outcome = .conflict) :
    (install_after_download inst d deps rn ru td nm dl tr₁).sys.registry = dl.sys.registry := by
  revert h
  simp only [install_after_download]
  repeat' split
  all_goals intro h
  all_goals first
    | rfl
    | (rw [handlerExc_outcome] at h; simp at h)
    | exact absurd h (install_post_move_not_abort _ _ _ _ _ _ _ _ _ _)

/-- When `install_after_download` does not commit, no registry write
appears at the top level of its trace. -/
theorem install_after_download_no_save
    (inst : WorldTree → Sys → String → Option String → IResult) (d : FlatWorld)
    (deps : List WorldTree) (rn ru td : String) (nm : Option String) (dl : DlRes)
    (tr₁ : List Effect)
    (hne : ∀ reg, Effect.saveRegistry reg ∉ tr₁)
    (h : (install_after_download inst d deps rn ru td nm dl tr₁).outcome ≠ .success) :
    ∀ reg, Effect.saveRegistry reg ∉ (install_after_download inst d deps rn ru td nm dl tr₁).tr := by
  revert h
  simp only [install_after_download]
  repeat' split
  all_goals intro h
  all_goals first
    | exact hne
    | (intro reg hm; rcases List.mem_append.mp hm with hm | hm;
        exacts [hne reg hm, absurd hm (by simp)])
    | (intro reg; exact handlerExc_no_save _ _ _ _ (hne reg))
    | (refine install_post_move_no_save _ _ _ _ _ _ _ _ _ _ ?_ h;
        intro reg hm; rcases List.mem_append.mp hm with hm | hm;
        exacts [hne reg hm, absurd hm (by simp)])

/-- When `install_after_download` commits, the registry write is the
final effect and the only top-level one. -/
theorem install_after_download_success_shape
    (inst : WorldTree → Sys → String → Option String → IResult) (d : FlatWorld)
    (deps : List WorldTree) (rn ru td : String) (nm : Option String) (dl : DlRes)
    (tr₁ : List Effect)
    (hne : ∀ reg, Effect.saveRegistry reg ∉ tr₁)
    (h : (install_after_download inst d deps rn ru td nm dl tr₁).outcome = .success) :
    ∃ pre, (install_after_download inst d deps rn ru td nm dl tr₁).tr =
        pre ++ [Effect.saveRegistry
          (install_after_download inst d deps rn ru td nm dl tr₁).sys.registry] ∧
      ∀ reg, Effect.saveRegistry reg ∉ pre := by
  revert h
  simp only [install_after_download]
  repeat' split
  all_goals intro h
  all_goals first
    | simp at h
    | (rw [handlerExc_outcome] at h; simp at h)
    | (refine install_post_move_success_shape _ _ _ _ _ _ _ _ _ _ ?_ h;
        intro reg hm; rcases List.mem_append.mp hm with hm | hm;
        exacts [hne reg hm, absurd hm (by simp)])

/-- The stale-temp cleanup step writes no registry. -/
theorem staleCleanup_no_save (s : Sys) (temp : String) (reg : Registry) :
    Effect.saveRegistry reg ∉
      (if temp ∈ s.paths then
        ({ s with paths := s.paths.erase temp }, ([.rmtree temp] : List Effect))
      else (s, [])).2 := by
  split <;> simp

/-- The stale-temp cleanup step preserves the registry. -/
theorem staleCleanup_registry (s : Sys) (temp : String) :
    (if temp ∈ s.paths then
      ({ s with paths := s.paths.erase temp }, ([.rmtree temp] : List Effect))
    else (s, [])).1.registry = s.registry := by
  split <;> rfl

/-! ## Concrete fixtures used by witnesses and counterexamples -/

/-- An initially clean system: empty registry, no pre-existing paths. -/
def S0 : Sys := ⟨[], [], "/home/user", "2024-01-01 00:00:00"⟩

/-- A fully cooperative environment whose fetched package declares only
an install name. -/
def goodWorld : FlatWorld :=
  ⟨⟨true, true, true⟩, some ["Name:\"MyApp\""], false, false, false, false⟩

/-! ## Claim C1 -/

/-- C1 (amended): whenever `validate_repo_url` rejects the normalized URL
— its netloc does not end with "github.com", or the first segment of its
path is not the allowed organization — `install_package` returns before
any network request or filesystem side effect: the system state is
returned unchanged and the effect trace is empty.  (The claim's "host is
not github.com" is amended to "netloc does not end with github.com":
the code's `endswith` check also accepts hosts such as `evilgithub.com`,
see `C1_counterexample`.) -/
theorem C1_rejected_before_any_effect (fuel : Nat) (w : WorldTree) (s : Sys)
    (repo_input : String) (name : Option String)
    (h : validate_repo_url (normalize_repo_url repo_input) = false) :
    install_package (fuel + 1) w s repo_input name = ⟨s, [], .validationFailed⟩ := by
  obtain ⟨d, deps⟩ := w
  simp [install_package, h]

/-- C1 witness: `https://github.com/SomeoneElse/repo` is outside the
allowed organization and is rejected with no effects at all. -/
theorem C1_witness :
    validate_repo_url (normalize_repo_url "https://github.com/SomeoneElse/repo") = false ∧
    install_package 1 defaultWorld S0 "https://github.com/SomeoneElse/repo" none =
      ⟨S0, [], .validationFailed⟩ :=
  ⟨by decide, C1_rejected_before_any_effect 0 defaultWorld S0 _ none (by decide)⟩

/-- C1 counterexample: the claim as stated is false.  The normalized URL
`https://evilgithub.com/Liqueur-Manager/repo` has netloc
`evilgithub.com`, which is not `github.com`, yet `install_package` does
not reject it: validation passes and a network request (to the fixed
archive endpoint) is issued. -/
theorem C1_counterexample :
    (pyUrlsplit "https://evilgithub.com/Liqueur-Manager/repo").map Prod.fst =
      some "evilgithub.com" ∧
    (install_package 1 defaultWorld S0 "https://evilgithub.com/Liqueur-Manager/repo"
      none).outcome ≠ .validationFailed ∧
    (install_package 1 defaultWorld S0 "https://evilgithub.com/Liqueur-Manager/repo"
      none).tr = [Effect.netGet (archive_url "repo")] :=
  ⟨by decide, by decide, rfl⟩

/-! ## Claim C4 -/

/-- The staging directory used by the C4 evaluation. -/
def tmpMyRepo : String := PACKAGES_DIR ++ "/temp_MyRepo"

/-- C4: evaluation of both `download_repo` variants at the claim's
failure situations.  A network error (or non-2xx response) raises before
`zip_path` is assigned: `main.py`'s handler then evaluates
`zip_path.exists()` and raises `NameError` out of the function (first
conjunct) instead of returning failure, while `Liqueur.py`'s
`'zip_path' in locals()` guard returns `False` (second conjunct).  A
corrupt archive deletes the temporary zip and returns `False` (third and
fourth conjuncts).  A missing `MyRepo-main` directory after extraction is
not detected: the call returns success (`True`) without creating the
destination directory (fifth and sixth conjuncts), where the claim says
it must report failure. -/
theorem C4_download_repo_evaluation :
    (download_repo_main ⟨false, true, true⟩ "MyRepo" tmpMyRepo S0).out = .exc ∧
    (download_repo ⟨false, true, true⟩ "MyRepo" tmpMyRepo S0).out = .fail ∧
    (download_repo ⟨true, false, true⟩ "MyRepo" tmpMyRepo S0).out = .fail ∧
    (download_repo ⟨true, false, true⟩ "MyRepo" tmpMyRepo S0).sys.paths = S0.paths ∧
    (download_repo ⟨true, true, false⟩ "MyRepo" tmpMyRepo S0).out = .ok ∧
    tmpMyRepo ∉ (download_repo ⟨true, true, false⟩ "MyRepo" tmpMyRepo S0).sys.paths :=
  ⟨by decide, by decide, by decide, by decide, by decide, by decide⟩

/-! ## Claim C5 -/

/-- C5: `parse_options` is total by construction and degrades gracefully:
an absent `option.txt` yields the fully-default manifest; a file whose
effective line sequence is shorter than a field's position leaves that
field at its documented default (install name `None`, launch file `None`,
autorun false, dependencies empty, add-to-path false, downloadable true,
official true, commands empty); and a dependencies or commands line on
which `json.loads` raises leaves that field the empty sequence
(`JVal.jarr []`, the empty Python list). -/
theorem C5_parse_options_defaults :
    parse_options none = defaultOptions ∧
    (∀ raw, (eff_lines raw).length = 0 → parse_options (some raw) = defaultOptions) ∧
    (∀ raw, (eff_lines raw).length ≤ 1 → (parse_options (some raw)).launch_file = none) ∧
    (∀ raw, (eff_lines raw).length ≤ 2 → (parse_options (some raw)).autorun = false) ∧
    (∀ raw, (eff_lines raw).length ≤ 3 → (parse_options (some raw)).dependencies = .jarr []) ∧
    (∀ raw, (eff_lines raw).length ≤ 4 → (parse_options (some raw)).add_to_path = false) ∧
    (∀ raw, (eff_lines raw).length ≤ 5 → (parse_options (some raw)).downloadable = true) ∧
    (∀ raw, (eff_lines raw).length ≤ 6 → (parse_options (some raw)).official = true) ∧
    (∀ raw, (eff_lines raw).length ≤ 7 → (parse_options (some raw)).commands = .jarr []) ∧
    (∀ raw, json_loads ((eff_lines raw).getD 3 "") = none →
      (parse_options (some raw)).dependencies = .jarr []) ∧
    (∀ raw, json_loads ((eff_lines raw).getD 7 "") = none →
      (parse_options (some raw)).commands = .jarr []) := by
  refine ⟨rfl, ?_, ?_, ?_, ?_, ?_, ?_, ?_, ?_, ?_, ?_⟩
  · intro raw h
    simp [parse_options, defaultOptions, h]
  · intro raw h
    simp only [parse_options]
    rw [if_neg]
    omega
  · intro raw h
    simp only [parse_options]
    rw [if_neg (by omega)]
  · intro raw h
    simp only [parse_options]
    rw [if_neg (by omega)]
  · intro raw h
    simp only [parse_options]
    rw [if_neg (by omega)]
  · intro raw h
    simp only [parse_options]
    rw [if_neg (by omega)]
  · intro raw h
    simp only [parse_options]
    rw [if_neg (by omega)]
  · intro raw h
    simp only [parse_options]
    rw [if_neg (by omega)]
  · intro raw h
    simp only [List.getD, List.get?_eq_getElem?] at h
    simp [parse_options, jsonField, h]
  · intro raw h
    simp only [List.getD, List.get?_eq_getElem?] at h
    simp [parse_options, jsonField, h]

/-- The manifest used by the C5 witness: a four-line file whose
dependencies line is not valid JSON. -/
def c5raw : List String := ["Name:\"A\"  # c", "File:\"f\"", "yes", "[oops"]

/-- C5 witness: the short-file and malformed-JSON components applied at a
concrete manifest. -/
theorem C5_witness :
    ((eff_lines c5raw).length ≤ 7 ∧ (parse_options (some c5raw)).commands = .jarr []) ∧
    (json_loads ((eff_lines c5raw).getD 3 "") = none ∧
      (parse_options (some c5raw)).dependencies = .jarr []) :=
  ⟨⟨by decide, C5_parse_options_defaults.2.2.2.2.2.2.2.2.1 c5raw (by decide)⟩,
   ⟨rfl, C5_parse_options_defaults.2.2.2.2.2.2.2.2.2.1 c5raw rfl⟩⟩

/-! ## Claim C6 -/

/-- C6 counterexample: the claim's line discipline (strip the comment
first, then drop lines blank after stripping) disagrees with the code,
which drops lines blank BEFORE comment stripping.  On a file whose first
line is a comment, the code's sequence keeps an empty string in position
0, so the `Name:` line in position 1 is not parsed — whereas under the
claimed discipline the comment line would occupy no position and the name
would be read. -/
theorem C6_counterexample :
    eff_lines ["# note", "Name:\"Q\""] ≠ spec_effective_lines ["# note", "Name:\"Q\""] ∧
    (parse_options (some ["# note", "Name:\"Q\""])).install_name = none ∧
    (parse_options (some ["Name:\"Q\""])).install_name = some "Q" :=
  ⟨by decide, by decide, by decide⟩

/-- C6 (amended): the positional sequence consists of the file's lines
that are non-blank BEFORE comment stripping, each replaced by its text
before the first `#` stripped of whitespace; consequently a line
consisting only of a comment occupies a position (holding the empty
string) and shifts all later fields, and in particular a file starting
with a comment-only line never yields an install name from its second
line. -/
theorem C6_effective_lines (l : String) (c : String) (raw : List String) :
    (pyStrip l = "" → eff_lines (l :: raw) = eff_lines raw) ∧
    (pyStrip l ≠ "" → eff_lines (l :: raw) = pyStrip (takeUntilHash l) :: eff_lines raw) ∧
    eff_lines (("#" ++ c) :: raw) = "" :: eff_lines raw ∧
    (parse_options (some (("#" ++ c) :: raw))).install_name = none := by
  have hdata : ("#" ++ c).data = '#' :: c.data := by
    rw [String.data_append]
    rfl
  have hne : pyStrip ("#" ++ c) ≠ "" := by
    intro hcontra
    have : stripEnds (fun ch => pyWhitespace.contains ch) ("#" ++ c).data = [] := by
      have := congrArg String.data hcontra
      simpa [pyStrip] using this
    rw [hdata] at this
    unfold stripEnds at this
    have hdw : List.dropWhile (fun ch => pyWhitespace.contains ch) ('#' :: c.data)
        = '#' :: c.data := by
      rw [List.dropWhile_cons_of_neg]
      decide
    rw [hdw] at this
    have hnil := List.reverse_eq_nil_iff.mp this
    have hall := List.dropWhile_eq_nil_iff.mp hnil
    have : pyWhitespace.contains '#' = true := by
      exact hall '#' (by simp)
    exact absurd this (by decide)
  have hhash : pyStrip (takeUntilHash ("#" ++ c)) = "" := by
    have : takeUntilHash ("#" ++ c) = "" := by
      unfold takeUntilHash
      rw [hdata]
      simp
    rw [this]
    rfl
  have hcons : eff_lines (("#" ++ c) :: raw) = "" :: eff_lines raw := by
    simp [eff_lines, hne, hhash]
  refine ⟨?_, ?_, hcons, ?_⟩
  · intro h
    simp [eff_lines, h]
  · intro h
    simp [eff_lines, h]
  · simp only [parse_options, hcons]
    rw [if_neg]
    rintro ⟨-, hsw⟩
    simp [List.getD] at hsw
    exact absurd hsw (by decide)

/-- C6 witness: the behavioural characterization applied at concrete
lines — a blank line is dropped, a content line is kept comment-stripped,
and a leading comment-only line suppresses the name field. -/
theorem C6_witness :
    (pyStrip "   " = "" ∧ eff_lines ["   ", "x"] = eff_lines ["x"]) ∧
    (pyStrip "x # y" ≠ "" ∧ eff_lines ["x # y"] = pyStrip (takeUntilHash "x # y") :: eff_lines []) ∧
    (parse_options (some ["# lead", "Name:\"Q\""])).install_name = none :=
  ⟨⟨by decide, (C6_effective_lines "   " "" ["x"]).1 (by decide)⟩,
   ⟨by decide, (C6_effective_lines "x # y" "" []).2.1 (by decide)⟩,
   (C6_effective_lines "" " lead" ["Name:\"Q\""]).2.2.2⟩

/-! ## Claim C2 -/

/-- When the resolved target directory already exists at the conflict
check, `install_after_download` aborts with a conflict: the registry and
the target directory are untouched and the only new effect is the removal
of the staging directory. -/
theorem install_after_download_conflict
    (inst : WorldTree → Sys → String → Option String → IResult) (d : FlatWorld)
    (deps : List WorldTree) (rn ru temp : String) (nm : Option String) (s' : Sys)
    (tr₁ : List Effect) (pkg target : String)
    (hnet : d.dl.netOk = true) (hzo : d.dl.zipOk = true) (hm : d.dl.hasMain = true)
    (hoff : (parse_options d.optionFile).official = true ∨ d.confirmUnofficial = true)
    (hdl : (parse_options d.optionFile).downloadable = true)
    (hpkg : pkg = pyOrS nm (pyOrS (parse_options d.optionFile).install_name rn))
    (htarget : target = PACKAGES_DIR ++ "/" ++ pkg)
    (hmem : target ∈ s'.paths)
    (d1 : target ≠ temp) (d2 : target ≠ pyWithSuffix temp ".zip")
    (d3 : target ≠ pyJoin (pyParent temp) (rn ++ "-main"))
    (d4 : temp ≠ pyWithSuffix temp ".zip") :
    (install_after_download inst d deps rn ru temp nm (download_repo d.dl rn temp s')
      tr₁).outcome = .conflict ∧
    (install_after_download inst d deps rn ru temp nm (download_repo d.dl rn temp s')
      tr₁).sys.registry = s'.registry ∧
    target ∈ (install_after_download inst d deps rn ru temp nm
      (download_repo d.dl rn temp s') tr₁).sys.paths ∧
    (install_after_download inst d deps rn ru temp nm (download_repo d.dl rn temp s')
      tr₁).tr = tr₁ ++ [Effect.rmtree temp] := by
  have hok : (download_repo d.dl rn temp s').out = .ok :=
    download_out_eq_ok true d.dl rn temp s' hnet hzo
  have htmem : temp ∈ (download_repo d.dl rn temp s').sys.paths :=
    download_target_mem true d.dl rn temp s' hnet hzo hm d4
  have htg : target ∈ (download_repo d.dl rn temp s').sys.paths :=
    (download_mem_iff true d.dl rn temp s' target d1 d2 d3).mpr hmem
  have hreg : (download_repo d.dl rn temp s').sys.registry = s'.registry :=
    download_registry_eq true d.dl rn temp s'
  simp only [install_after_download]
  rw [if_neg (by simp [hok])]
  rw [if_pos hm]
  rw [if_neg (by rcases hoff with h | h <;> simp [h])]
  rw [if_neg (by simp [hdl])]
  rw [← hpkg, ← htarget]
  rw [if_pos htg, if_pos htmem]
  exact ⟨rfl, hreg, (List.mem_erase_of_ne d1).mpr htg, rfl⟩

/-- C2 (amended): whenever the resolved final package name's target
directory already exists AND that directory is none of the install's own
staging names — the staging directory `PACKAGES_DIR/temp_{repo}` (`d1`),
its zip archive (`d2`), and the transient extracted directory
`PACKAGES_DIR/{repo}-main` (`d3`; `d4` additionally keeps the staging
directory distinct from its own zip name) — the install aborts with a
conflict before any destructive action on it: the persisted registry is
unchanged, the pre-existing directory still exists, and every path
destroyed by the call's effects is a staging artifact.  The carve-outs
are necessary, not hypotheses of convenience: an install whose resolved
name collides with a staging name destroys or consumes the pre-existing
installation (`--name temp_{repo}` is rmtree'd by the stale-staging
cleanup before the download; `--name {repo}-main` is consumed by the
extract/rename, bypassing the conflict check entirely, and its registry
key is overwritten) — see `C2_counterexample`.  The claim's "already has
a registry entry" condition is also amended away: only the directory is
checked, and a registry key whose directory is missing IS silently
overwritten. -/
theorem C2_existing_target_conflict (fuel : Nat) (d : FlatWorld) (deps : List WorldTree)
    (s : Sys) (ri : String) (nm : Option String)
    (rn temp pkg target : String) (options : Options)
    (hrn : rn = afterLastSlash (normalize_repo_url ri))
    (htemp : temp = PACKAGES_DIR ++ "/temp_" ++ rn)
    (hopt : options = parse_options d.optionFile)
    (hpkg : pkg = pyOrS nm (pyOrS options.install_name rn))
    (htarget : target = PACKAGES_DIR ++ "/" ++ pkg)
    (hv : validate_repo_url (normalize_repo_url ri) = true)
    (hnet : d.dl.netOk = true) (hzo : d.dl.zipOk = true) (hm : d.dl.hasMain = true)
    (hoff : options.official = true ∨ d.confirmUnofficial = true)
    (hdl : options.downloadable = true)
    (hmem : target ∈ s.paths)
    (d1 : target ≠ temp) (d2 : target ≠ pyWithSuffix temp ".zip")
    (d3 : target ≠ pyJoin (pyParent temp) (rn ++ "-main"))
    (d4 : temp ≠ pyWithSuffix temp ".zip") :
    (install_package (fuel + 1) (.node d deps) s ri nm).outcome = .conflict ∧
    (install_package (fuel + 1) (.node d deps) s ri nm).sys.registry = s.registry ∧
    target ∈ (install_package (fuel + 1) (.node d deps) s ri nm).sys.paths ∧
    (∀ e ∈ (install_package (fuel + 1) (.node d deps) s ri nm).tr, ∀ p ∈ destroys e,
      p = temp ∨ p = pyWithSuffix temp ".zip" ∨ p = pyJoin (pyParent temp) (rn ++ "-main")) := by
  subst hopt
  simp only [install_package]
  rw [if_pos hv, ← hrn, ← htemp]
  by_cases hst : temp ∈ s.paths
  · rw [if_pos hst]
    obtain ⟨ho, hreg, htg, htr⟩ :=
      install_after_download_conflict (install_package fuel) d deps rn
        (normalize_repo_url ri) temp nm { s with paths := s.paths.erase temp }
        ([Effect.rmtree temp] ++ (download_repo d.dl rn temp
          { s with paths := s.paths.erase temp }).tr) pkg target
        hnet hzo hm hoff hdl hpkg htarget
        ((List.mem_erase_of_ne d1).mpr hmem) d1 d2 d3 d4
    refine ⟨ho, hreg, htg, ?_⟩
    rw [htr]
    intro e he p hp
    rcases List.mem_append.mp he with he | he
    · rcases List.mem_append.mp he with he | he
      · rcases List.mem_singleton.mp he with rfl
        simp only [destroys, List.mem_singleton] at hp
        exact Or.inl hp
      · rcases download_destroys true d.dl rn temp _ e he p hp with h | h
        · exact Or.inr (Or.inl h)
        · exact Or.inr (Or.inr h)
    · rcases List.mem_singleton.mp he with rfl
      simp only [destroys, List.mem_singleton] at hp
      exact Or.inl hp
  · rw [if_neg hst]
    obtain ⟨ho, hreg, htg, htr⟩ :=
      install_after_download_conflict (install_package fuel) d deps rn
        (normalize_repo_url ri) temp nm s
        (([] : List Effect) ++ (download_repo d.dl rn temp s).tr) pkg target
        hnet hzo hm hoff hdl hpkg htarget hmem d1 d2 d3 d4
    refine ⟨ho, hreg, htg, ?_⟩
    rw [htr]
    intro e he p hp
    rcases List.mem_append.mp he with he | he
    · rcases List.mem_append.mp he with he | he
      · cases he
      · rcases download_destroys true d.dl rn temp _ e he p hp with h | h
        · exact Or.inr (Or.inl h)
        · exact Or.inr (Or.inr h)
    · rcases List.mem_singleton.mp he with rfl
      simp only [destroys, List.mem_singleton] at hp
      exact Or.inl hp

/-- The pre-existing registry entry overwritten in `C2_counterexample`. -/
def oldEntry : Entry := ⟨"old_url", "/old", "old_time"⟩

/-- A system holding a registry entry for `MyApp` whose directory has
been removed from disk. -/
def s2 : Sys := ⟨[("MyApp", oldEntry)], [], "/home/user", "NOW"⟩

/-- A system in which the package `temp_MyRepo` — a name colliding with
the staging directory of a `MyRepo` install — is installed: its registry
entry and directory both exist. -/
def sTempClash : Sys :=
  ⟨[("temp_MyRepo", ⟨"old_url", "/Liqueur_Packages/temp_MyRepo", "old_time"⟩)],
    ["/Liqueur_Packages/temp_MyRepo"], "/home/user", "NOW"⟩

/-- A system in which the package `MyRepo-main` — a name colliding with
the extracted directory of a `MyRepo` archive — is installed: its
registry entry and directory both exist. -/
def sMainClash : Sys :=
  ⟨[("MyRepo-main", oldEntry)], ["/Liqueur_Packages/MyRepo-main"], "/home/user", "NOW"⟩

/-- C2 counterexample: three concrete installs falsify the claim.
(1) The resolved name `MyApp` already has a registry entry, but its
directory does not exist — the install does NOT abort: it succeeds and
silently overwrites the existing registry key.  (2) `install MyRepo
--name temp_MyRepo` with the target directory pre-existing: the target
coincides with the staging directory, the stale-staging cleanup
rmtree's the pre-existing installation before the download, and though
the outcome is the conflict abort, the installed directory has been
destroyed and is gone from the final state.  (3) `install MyRepo
--name MyRepo-main` with the target directory pre-existing and
registered: the target coincides with the extracted directory, the
extract/rename consumes it before the conflict check runs, and the
install SUCCEEDS, destroying the pre-existing directory's contents and
overwriting its registry key. -/
theorem C2_counterexample :
    (dictLookup "MyApp" s2.registry = some oldEntry ∧
     (install_package 1 (.node goodWorld []) s2 "MyRepo" none).outcome = .success ∧
     dictLookup "MyApp" (install_package 1 (.node goodWorld []) s2 "MyRepo"
       none).sys.registry =
       some ⟨"https://github.com/Liqueur-Manager/MyRepo", "/Liqueur_Packages/MyApp", "NOW"⟩ ∧
     dictLookup "MyApp" (install_package 1 (.node goodWorld []) s2 "MyRepo"
       none).sys.registry ≠ some oldEntry) ∧
    ("/Liqueur_Packages/temp_MyRepo" ∈ sTempClash.paths ∧
     (install_package 1 (.node goodWorld []) sTempClash "MyRepo"
       (some "temp_MyRepo")).outcome = .conflict ∧
     ((install_package 1 (.node goodWorld []) sTempClash "MyRepo"
       (some "temp_MyRepo")).tr.any
         (fun e => (destroys e).contains "/Liqueur_Packages/temp_MyRepo")) = true ∧
     "/Liqueur_Packages/temp_MyRepo" ∉
       (install_package 1 (.node goodWorld []) sTempClash "MyRepo"
         (some "temp_MyRepo")).sys.paths) ∧
    ("/Liqueur_Packages/MyRepo-main" ∈ sMainClash.paths ∧
     dictLookup "MyRepo-main" sMainClash.registry = some oldEntry ∧
     (install_package 1 (.node goodWorld []) sMainClash "MyRepo"
       (some "MyRepo-main")).outcome = .success ∧
     ((install_package 1 (.node goodWorld []) sMainClash "MyRepo"
       (some "MyRepo-main")).tr.any
         (fun e => (destroys e).contains "/Liqueur_Packages/MyRepo-main")) = true ∧
     dictLookup "MyRepo-main" (install_package 1 (.node goodWorld []) sMainClash "MyRepo"
       (some "MyRepo-main")).sys.registry ≠ some oldEntry) :=
  ⟨⟨by decide, by decide, by decide, by decide⟩,
   ⟨by decide, by decide, by decide, by decide⟩,
   ⟨by decide, by decide, by decide, by decide, by decide⟩⟩

/-- A system in which the target directory of `MyApp` already exists. -/
def sConflict : Sys :=
  ⟨[("MyApp", ⟨"u", "/Liqueur_Packages/MyApp", "t"⟩)], ["/Liqueur_Packages/MyApp"],
    "/home/user", "t"⟩

/-- C2 witness: installing over an existing `MyApp` directory aborts with
a conflict, leaves registry and directory alone, and destroys only
staging artifacts. -/
theorem C2_witness :
    (install_package 1 (.node goodWorld []) sConflict "MyRepo" none).outcome = .conflict ∧
    (install_package 1 (.node goodWorld []) sConflict "MyRepo" none).sys.registry =
      sConflict.registry ∧
    "/Liqueur_Packages/MyApp" ∈
      (install_package 1 (.node goodWorld []) sConflict "MyRepo" none).sys.paths ∧
    (∀ e ∈ (install_package 1 (.node goodWorld []) sConflict "MyRepo" none).tr,
      ∀ p ∈ destroys e, p = "/Liqueur_Packages/temp_MyRepo" ∨
        p = pyWithSuffix "/Liqueur_Packages/temp_MyRepo" ".zip" ∨
        p = pyJoin (pyParent "/Liqueur_Packages/temp_MyRepo") ("MyRepo" ++ "-main")) :=
  C2_existing_target_conflict 0 goodWorld [] sConflict "MyRepo" none
    "MyRepo" "/Liqueur_Packages/temp_MyRepo" "MyApp" "/Liqueur_Packages/MyApp"
    (parse_options goodWorld.optionFile)
    (by decide) (by decide) rfl (by decide) (by decide) (by decide) (by decide) (by decide)
    (by decide) (by decide) (by decide) (by decide) (by decide) (by decide) (by decide)
    (by decide)

/-! ## Claim C3 -/

/-- C3 (amended): `install_package` itself writes the persisted registry
only as its final step.  On the enumerated abort exits (URL validation
failure, download failure, declined unofficial confirmation,
non-downloadable package, name conflict) the registry is exactly what it
was before the call; on any non-success exit no registry write appears at
the top level of the call's effect trace (writes during a failed install
can come only from recursive dependency installs, nested in `depInstall`
effects — the claim's "exactly what it was before the call" fails for
those, see `C3_counterexample`); and on success the registry write is the
final effect of the trace and the only top-level one. -/
theorem C3_registry_commit_discipline (fuel : Nat) (w : WorldTree) (s : Sys)
    (ri : String) (nm : Option String) :
    ((install_package fuel w s ri nm).outcome = .validationFailed ∨
     (install_package fuel w s ri nm).outcome = .downloadFailed ∨
     (install_package fuel w s ri nm).outcome = .declinedUnofficial ∨
     (install_package fuel w s ri nm).outcome = .notDownloadable ∨
     (install_package fuel w s ri nm).outcome = .conflict →
      (install_package fuel w s ri nm).sys.registry = s.registry) ∧
    ((install_package fuel w s ri nm).outcome ≠ .success →
      ∀ reg, Effect.saveRegistry reg ∉ (install_package fuel w s ri nm).tr) ∧
    ((install_package fuel w s ri nm).outcome = .success →
      ∃ pre, (install_package fuel w s ri nm).tr =
          pre ++ [Effect.saveRegistry (install_package fuel w s ri nm).sys.registry] ∧
        ∀ reg, Effect.saveRegistry reg ∉ pre) := by
  obtain ⟨d, deps⟩ := w
  cases fuel with
  | zero =>
    refine ⟨fun h => rfl, fun h reg hm => ?_, fun h => ?_⟩
    · simp [install_package] at hm
    · simp [install_package] at h
  | succ n =>
    refine ⟨?_, ?_, ?_⟩
    · intro h
      revert h
      simp only [install_package]
      split
      · intro h
        rw [install_after_download_abort_registry _ _ _ _ _ _ _ _ _ h]
        simp only [download_repo]
        rw [download_registry_eq, staleCleanup_registry]
      · intro h
        rfl
    · intro h reg
      revert h
      simp only [install_package]
      split
      · intro h
        refine install_after_download_no_save _ _ _ _ _ _ _ _ _ ?_ h reg
        intro reg' hm
        rcases List.mem_append.mp hm with hm | hm
        · exact staleCleanup_no_save _ _ _ hm
        · exact download_no_save _ _ _ _ _ _ hm
      · intro h hm
        simp at hm
    · intro h
      revert h
      simp only [install_package]
      split
      · intro h
        refine install_after_download_success_shape _ _ _ _ _ _ _ _ _ ?_ h
        intro reg' hm
        rcases List.mem_append.mp hm with hm | hm
        · exact staleCleanup_no_save _ _ _ hm
        · exact download_no_save _ _ _ _ _ _ hm
      · intro h
        simp at h

/-- A dependency package that installs cleanly with no manifest. -/
def depWorld : FlatWorld := ⟨⟨true, true, true⟩, none, false, false, false, false⟩

/-- A parent package that declares an org-repository dependency and a
launch file whose launch raises after the dependency has installed. -/
def parentWorld : FlatWorld :=
  ⟨⟨true, true, true⟩,
    some ["Name:\"Par\"", "File:\"run.py\"", "false", "[\"Liqueur-Manager/DepPkg\"]"],
    false, false, true, true⟩

/-- C3 counterexample: an install that fails (the launch step raises
after the dependency installed) yet leaves the persisted registry
different from what it was before the call — the recursive dependency
install committed its own entry.  This falsifies the claim's "the
persisted registry mapping is exactly what it was before the call" for
the raised-exception case. -/
theorem C3_counterexample :
    (install_package 2 (.node parentWorld [.node depWorld []]) S0 "MyRepo" none).outcome ≠
      .success ∧
    (install_package 2 (.node parentWorld [.node depWorld []]) S0 "MyRepo"
      none).sys.registry ≠ S0.registry :=
  ⟨by decide, by decide⟩

/-- C3 witness: a failed download leaves the registry exactly unchanged,
and a clean install commits exactly once, as the final effect. -/
theorem C3_witness :
    (install_package 1 defaultWorld S0 "MyRepo" none).outcome = .downloadFailed ∧
    (install_package 1 defaultWorld S0 "MyRepo" none).sys.registry = S0.registry ∧
    ∃ pre, (install_package 1 (.node goodWorld []) S0 "MyRepo" none).tr =
        pre ++ [Effect.saveRegistry
          (install_package 1 (.node goodWorld []) S0 "MyRepo" none).sys.registry] ∧
      ∀ reg, Effect.saveRegistry reg ∉ pre :=
  ⟨by decide,
   (C3_registry_commit_discipline 1 defaultWorld S0 "MyRepo" none).1
     (Or.inr (Or.inl (by decide))),
   (C3_registry_commit_discipline 1 (.node goodWorld []) S0 "MyRepo" none).2.2 (by decide)⟩

/-! ## Claim C7 -/

/-- The name-resolution rule as the amended claim words it: the explicit
caller-supplied name when given and non-empty, otherwise the manifest's
declared install name when present and non-empty, otherwise the bare
repository name.  (Python's `or` chain treats the empty string like an
absent value.) -/
def resolvedNameSpec (name install_name : Option String) (repo_name : String) : String :=
  match name with
  | some n =>
    if n ≠ "" then n
    else
      match install_name with
      | some m => if m ≠ "" then m else repo_name
      | none => repo_name
  | none =>
    match install_name with
    | some m => if m ≠ "" then m else repo_name
    | none => repo_name

/-- The code's `name or options["install_name"] or repo_name` computes
exactly the amended resolution rule. -/
theorem resolvedNameSpec_eq (nm inm : Option String) (rn : String) :
    pyOrS nm (pyOrS inm rn) = resolvedNameSpec nm inm rn := by
  cases nm with
  | none =>
    cases inm with
    | none => rfl
    | some m => by_cases hm : m = "" <;> simp [pyOrS, resolvedNameSpec, hm]
  | some n =>
    by_cases hn : n = ""
    · cases inm with
      | none => simp [pyOrS, resolvedNameSpec, hn]
      | some m => by_cases hm : m = "" <;> simp [pyOrS, resolvedNameSpec, hn, hm]
    · cases inm with
      | none => simp [pyOrS, resolvedNameSpec, hn]
      | some m => by_cases hm : m = "" <;> simp [pyOrS, resolvedNameSpec, hn, hm]

/-- When the post-move phase commits, the final registry is the previous
one with the resolved name bound to an entry carrying the repository URL
and the target path. -/
theorem install_post_move_success_registry
    (inst : WorldTree → Sys → String → Option String → IResult) (d : FlatWorld)
    (deps : List WorldTree) (options : Options) (pn ru td tg : String) (s : Sys)
    (tr : List Effect)
    (h : (install_post_move inst d deps options pn ru td tg s tr).outcome = .success) :
    ∃ ts reg0, (install_post_move inst d deps options pn ru td tg s tr).sys.registry =
      dictInsert pn ⟨ru, PACKAGES_DIR ++ "/" ++ pn, ts⟩ reg0 := by
  revert h
  simp only [install_post_move]
  split
  · intro h
    rw [handlerExc_outcome] at h
    simp at h
  · split
    · intro h
      rw [handlerExc_outcome] at h
      simp at h
    · split
      · intro h
        rw [handlerExc_outcome] at h
        simp at h
      · intro h
        exact ⟨_, _, rfl⟩

/-- When the reach conditions hold and the target directory does not
exist, `install_after_download` performs the move into the resolved
target, and if it goes on to commit, the registry binds the resolved name
to the repository URL and target path. -/
theorem install_after_download_move
    (inst : WorldTree → Sys → String → Option String → IResult) (d : FlatWorld)
    (deps : List WorldTree) (rn ru temp : String) (nm : Option String) (s' : Sys)
    (tr₁ : List Effect) (pkg target : String)
    (hnet : d.dl.netOk = true) (hzo : d.dl.zipOk = true) (hm : d.dl.hasMain = true)
    (hoff : (parse_options d.optionFile).official = true ∨ d.confirmUnofficial = true)
    (hdl : (parse_options d.optionFile).downloadable = true)
    (hpkg : pkg = pyOrS nm (pyOrS (parse_options d.optionFile).install_name rn))
    (htarget : target = PACKAGES_DIR ++ "/" ++ pkg)
    (hnot : target ∉ s'.paths)
    (d1 : target ≠ temp) (d2 : target ≠ pyWithSuffix temp ".zip")
    (d3 : target ≠ pyJoin (pyParent temp) (rn ++ "-main"))
    (d4 : temp ≠ pyWithSuffix temp ".zip") :
    Effect.moveDir temp target ∈ (install_after_download inst d deps rn ru temp nm
      (download_repo d.dl rn temp s') tr₁).tr ∧
    ((install_after_download inst d deps rn ru temp nm (download_repo d.dl rn temp s')
        tr₁).outcome = .success →
      ∃ ts, dictLookup pkg (install_after_download inst d deps rn ru temp nm
          (download_repo d.dl rn temp s') tr₁).sys.registry =
        some ⟨ru, PACKAGES_DIR ++ "/" ++ pkg, ts⟩) := by
  have hok : (download_repo d.dl rn temp s').out = .ok :=
    download_out_eq_ok true d.dl rn temp s' hnet hzo
  have htmem : temp ∈ (download_repo d.dl rn temp s').sys.paths :=
    download_target_mem true d.dl rn temp s' hnet hzo hm d4
  have htgnot : target ∉ (download_repo d.dl rn temp s').sys.paths := fun hc =>
    hnot ((download_mem_iff true d.dl rn temp s' target d1 d2 d3).mp hc)
  simp only [install_after_download]
  rw [if_neg (by simp [hok])]
  rw [if_pos hm]
  rw [if_neg (by rcases hoff with h | h <;> simp [h])]
  rw [if_neg (by simp [hdl])]
  rw [← hpkg, ← htarget]
  rw [if_neg htgnot, if_neg (not_not_intro htmem)]
  constructor
  · obtain ⟨rest, hrest⟩ := install_post_move_tr_prefix (inst) d deps
      (parse_options d.optionFile) pkg ru temp target
      { (download_repo d.dl rn temp s').sys with
        paths := addPath target ((download_repo d.dl rn temp s').sys.paths.erase temp) }
      (tr₁ ++ [Effect.moveDir temp target])
    rw [hrest]
    exact List.mem_append_left _ (List.mem_append_right _ (List.mem_singleton_self _))
  · intro h
    obtain ⟨ts, reg0, hreg⟩ := install_post_move_success_registry inst d deps
      (parse_options d.optionFile) pkg ru temp target _ _ h
    rw [hreg, dictLookup_dictInsert]
    exact ⟨ts, by rw [htarget]⟩

/-- C7 (amended): for every install that reaches the placement step, the
final resolved package name is the explicit caller-supplied name when
given AND NON-EMPTY, otherwise the manifest's declared install name when
present and non-empty, otherwise the bare repository name: the staging
directory is moved to that name's directory, and on success the registry
binds that name to the repository URL and target path.  In particular
`--name MyApp` with a manifest declaring `Other` resolves to `MyApp`.
(The claim's unconditional "explicit caller-supplied name when one is
given" fails for the supplied empty string — see `C7_counterexample`.) -/
theorem C7_name_resolution (fuel : Nat) (d : FlatWorld) (deps : List WorldTree)
    (s : Sys) (ri : String) (nm : Option String)
    (rn temp pkg target : String) (options : Options)
    (hrn : rn = afterLastSlash (normalize_repo_url ri))
    (htemp : temp = PACKAGES_DIR ++ "/temp_" ++ rn)
    (hopt : options = parse_options d.optionFile)
    (hpkg : pkg = resolvedNameSpec nm options.install_name rn)
    (htarget : target = PACKAGES_DIR ++ "/" ++ pkg)
    (hv : validate_repo_url (normalize_repo_url ri) = true)
    (hnet : d.dl.netOk = true) (hzo : d.dl.zipOk = true) (hm : d.dl.hasMain = true)
    (hoff : options.official = true ∨ d.confirmUnofficial = true)
    (hdl : options.downloadable = true)
    (hnot : target ∉ s.paths)
    (d1 : target ≠ temp) (d2 : target ≠ pyWithSuffix temp ".zip")
    (d3 : target ≠ pyJoin (pyParent temp) (rn ++ "-main"))
    (d4 : temp ≠ pyWithSuffix temp ".zip") :
    Effect.moveDir temp target ∈ (install_package (fuel + 1) (.node d deps) s ri nm).tr ∧
    ((install_package (fuel + 1) (.node d deps) s ri nm).outcome = .success →
      ∃ ts, dictLookup pkg (install_package (fuel + 1) (.node d deps) s ri nm).sys.registry =
        some ⟨normalize_repo_url ri, PACKAGES_DIR ++ "/" ++ pkg, ts⟩) := by
  subst hopt
  have hpkg' : pkg = pyOrS nm (pyOrS (parse_options d.optionFile).install_name rn) := by
    rw [hpkg, resolvedNameSpec_eq]
  simp only [install_package]
  rw [if_pos hv, ← hrn, ← htemp]
  by_cases hst : temp ∈ s.paths
  · rw [if_pos hst]
    exact install_after_download_move (install_package fuel) d deps rn
      (normalize_repo_url ri) temp nm { s with paths := s.paths.erase temp }
      ([Effect.rmtree temp] ++ (download_repo d.dl rn temp
        { s with paths := s.paths.erase temp }).tr) pkg target
      hnet hzo hm hoff hdl hpkg' htarget
      (fun hc => hnot (List.mem_of_mem_erase hc)) d1 d2 d3 d4
  · rw [if_neg hst]
    exact install_after_download_move (install_package fuel) d deps rn
      (normalize_repo_url ri) temp nm s
      (([] : List Effect) ++ (download_repo d.dl rn temp s).tr) pkg target
      hnet hzo hm hoff hdl hpkg' htarget hnot d1 d2 d3 d4

/-- The environment of the C7 counterexample and witness: the manifest
declares install name `Other`. -/
def w7 : FlatWorld :=
  ⟨⟨true, true, true⟩, some ["Name:\"Other\""], false, false, false, false⟩

/-- C7 counterexample: the caller supplies the explicit name `""`.  The
claim says the explicit caller-supplied name wins whenever one is given,
so the resolved name should be `""` — but Python's `or` treats `""` as
absent: the install succeeds under the manifest's name `Other` and no
entry for `""` exists. -/
theorem C7_counterexample :
    (install_package 1 (.node w7 []) S0 "MyRepo" (some "")).outcome = .success ∧
    dictLookup "" (install_package 1 (.node w7 []) S0 "MyRepo" (some "")).sys.registry =
      none ∧
    dictLookup "Other" (install_package 1 (.node w7 []) S0 "MyRepo"
      (some "")).sys.registry ≠ none :=
  ⟨by decide, by decide, by decide⟩

/-- C7 witness: `--name MyApp` against a manifest declaring `Other`
resolves to `MyApp`: the move goes to `/Liqueur_Packages/MyApp` and the
registry binds `MyApp`. -/
theorem C7_witness :
    Effect.moveDir "/Liqueur_Packages/temp_MyRepo" "/Liqueur_Packages/MyApp" ∈
      (install_package 1 (.node w7 []) S0 "MyRepo" (some "MyApp")).tr ∧
    ∃ ts, dictLookup "MyApp" (install_package 1 (.node w7 []) S0 "MyRepo"
        (some "MyApp")).sys.registry =
      some ⟨normalize_repo_url "MyRepo", "/Liqueur_Packages/MyApp", ts⟩ :=
  ⟨(C7_name_resolution 0 w7 [] S0 "MyRepo" (some "MyApp") "MyRepo"
      "/Liqueur_Packages/temp_MyRepo" "MyApp" "/Liqueur_Packages/MyApp"
      (parse_options w7.optionFile) (by decide) (by decide) rfl (by decide) (by decide)
      (by decide) (by decide) (by decide) (by decide) (by decide) (by decide) (by decide)
      (by decide) (by decide) (by decide) (by decide)).1,
   (C7_name_resolution 0 w7 [] S0 "MyRepo" (some "MyApp") "MyRepo"
      "/Liqueur_Packages/temp_MyRepo" "MyApp" "/Liqueur_Packages/MyApp"
      (parse_options w7.optionFile) (by decide) (by decide) rfl (by decide) (by decide)
      (by decide) (by decide) (by decide) (by decide) (by decide) (by decide) (by decide)
      (by decide) (by decide) (by decide) (by decide)).2 (by decide)⟩

/-! ## Claim C10 -/

/-- A dependency loop over string elements without org-repository
references never raises (all pip failures are caught inside it). -/
theorem install_deps_loop_no_org
    (inst : WorldTree → Sys → String → Option String → IResult)
    (items : List JVal) (ws : List WorldTree) (s : Sys)
    (h : ∀ v ∈ items, ∃ dep, v = JVal.jstr dep ∧
      pyStartsWith dep (ALLOWED_ORG ++ "/") = false) :
    (install_deps_loop inst items ws s).raised = false := by
  induction items generalizing ws s with
  | nil => rfl
  | cons v ds ih =>
    obtain ⟨dep, rfl, hdep⟩ := h v (List.mem_cons_self _ _)
    have ht : ∀ u ∈ ds, ∃ d2, u = JVal.jstr d2 ∧
        pyStartsWith d2 (ALLOWED_ORG ++ "/") = false :=
      fun u hm => h u (List.mem_cons_of_mem _ hm)
    simp only [install_deps_loop]
    split
    · exact ih ws s ht
    · split
      · exact ih ws s ht
      · split
        · rename_i horg
          rw [hdep] at horg
          cases horg
        · exact ih ws s ht

/-- A dependency field that is either falsy or iterates into string
elements without org-repository references never lets an exception
escape `install_dependencies`. -/
theorem install_dependencies_no_org
    (inst : WorldTree → Sys → String → Option String → IResult)
    (ds : JVal) (ws : List WorldTree) (s : Sys)
    (h : pyTruthy ds = true → ∃ items, pyIterElems ds = some items ∧
      ∀ v ∈ items, ∃ dep, v = JVal.jstr dep ∧
        pyStartsWith dep (ALLOWED_ORG ++ "/") = false) :
    (install_dependencies inst ds ws s).raised = false := by
  unfold install_dependencies
  split
  · rfl
  · rename_i ht
    obtain ⟨items, hit, hall⟩ := h (not_not.mp ht)
    rw [hit]
    exact install_deps_loop_no_org inst items ws s hall

/-- If the dependency phase does not raise and the manifest declares at
least one command, the working directory after the post-move phase is the
target directory: `execute_commands` chdirs there and nothing afterwards
restores it. -/
theorem install_post_move_cwd
    (inst : WorldTree → Sys → String → Option String → IResult) (d : FlatWorld)
    (deps : List WorldTree) (options : Options) (pn ru td tg : String) (s : Sys)
    (tr : List Effect)
    (hraised : (install_dependencies inst options.dependencies deps s).raised = false)
    (hcmds : pyTruthy options.commands = true) :
    (install_post_move inst d deps options pn ru td tg s tr).sys.cwd = tg := by
  simp only [install_post_move]
  rw [if_neg (by simp [hraised])]
  split
  · rw [handlerExc_cwd]
    exact execute_commands_cwd _ _ _ _ hcmds
  · split
    · rw [handlerExc_cwd]
      exact execute_commands_cwd _ _ _ _ hcmds
    · exact execute_commands_cwd _ _ _ _ hcmds

/-- Reach-the-move version of the cwd property at the
`install_after_download` level. -/
theorem install_after_download_cwd
    (inst : WorldTree → Sys → String → Option String → IResult) (d : FlatWorld)
    (deps : List WorldTree) (rn ru temp : String) (nm : Option String) (s' : Sys)
    (tr₁ : List Effect) (pkg target : String)
    (hnet : d.dl.netOk = true) (hzo : d.dl.zipOk = true) (hm : d.dl.hasMain = true)
    (hoff : (parse_options d.optionFile).official = true ∨ d.confirmUnofficial = true)
    (hdl : (parse_options d.optionFile).downloadable = true)
    (hpkg : pkg = pyOrS nm (pyOrS (parse_options d.optionFile).install_name rn))
    (htarget : target = PACKAGES_DIR ++ "/" ++ pkg)
    (hnot : target ∉ s'.paths)
    (d1 : target ≠ temp) (d2 : target ≠ pyWithSuffix temp ".zip")
    (d3 : target ≠ pyJoin (pyParent temp) (rn ++ "-main"))
    (d4 : temp ≠ pyWithSuffix temp ".zip")
    (hdeps : pyTruthy (parse_options d.optionFile).dependencies = true →
      ∃ items, pyIterElems (parse_options d.optionFile).dependencies = some items ∧
        ∀ v ∈ items, ∃ dep, v = JVal.jstr dep ∧
          pyStartsWith dep (ALLOWED_ORG ++ "/") = false)
    (hcmds : pyTruthy (parse_options d.optionFile).commands = true) :
    (install_after_download inst d deps rn ru temp nm (download_repo d.dl rn temp s')
      tr₁).sys.cwd = target := by
  have hok : (download_repo d.dl rn temp s').out = .ok :=
    download_out_eq_ok true d.dl rn temp s' hnet hzo
  have htmem : temp ∈ (download_repo d.dl rn temp s').sys.paths :=
    download_target_mem true d.dl rn temp s' hnet hzo hm d4
  have htgnot : target ∉ (download_repo d.dl rn temp s').sys.paths := fun hc =>
    hnot ((download_mem_iff true d.dl rn temp s' target d1 d2 d3).mp hc)
  simp only [install_after_download]
  rw [if_neg (by simp [hok])]
  rw [if_pos hm]
  rw [if_neg (by rcases hoff with h | h <;> simp [h])]
  rw [if_neg (by simp [hdl])]
  rw [← hpkg, ← htarget]
  rw [if_neg htgnot, if_neg (not_not_intro htmem)]
  exact install_post_move_cwd inst d deps (parse_options d.optionFile) pkg ru temp target
    _ _ (install_dependencies_no_org inst _ deps _ hdeps) hcmds

/-- C10: when the fetched manifest declares at least one command (its
decoded `commands` value is truthy) and the install reaches the command
step, `execute_commands` changes the process-wide working directory to
the package target directory via `os.chdir` and nothing restores it:
after `install_package` returns, the process's working directory is the
newly installed package's directory rather than what it was before the
call.  The reach conditions are explicit hypotheses: the URL validates,
the download succeeds with the expected layout, the unofficial and
non-downloadable gates pass, the resolved name is fresh and avoids the
staging names, and the dependency phase does not raise out of
`install_dependencies` — `hdeps` demands that a truthy decoded
`dependencies` value be a list of strings.  A non-string element raises
`AttributeError` at `dep.lower()` and a truthy non-iterable value raises
`TypeError` at the `for` statement, both uncaught by the
`except subprocess.CalledProcessError` handler, so such an install
aborts before `execute_commands` and the cwd stays unchanged; `hdeps`
also keeps the strings outside the org, since an org dependency recurses
into `install_package`, which can raise `RecursionError` at the
interpreter limit. -/
theorem C10_commands_change_cwd (fuel : Nat) (d : FlatWorld) (deps : List WorldTree)
    (s : Sys) (ri : String) (nm : Option String)
    (rn temp pkg target : String) (options : Options)
    (hrn : rn = afterLastSlash (normalize_repo_url ri))
    (htemp : temp = PACKAGES_DIR ++ "/temp_" ++ rn)
    (hopt : options = parse_options d.optionFile)
    (hpkg : pkg = pyOrS nm (pyOrS options.install_name rn))
    (htarget : target = PACKAGES_DIR ++ "/" ++ pkg)
    (hv : validate_repo_url (normalize_repo_url ri) = true)
    (hnet : d.dl.netOk = true) (hzo : d.dl.zipOk = true) (hm : d.dl.hasMain = true)
    (hoff : options.official = true ∨ d.confirmUnofficial = true)
    (hdl : options.downloadable = true)
    (hnot : target ∉ s.paths)
    (d1 : target ≠ temp) (d2 : target ≠ pyWithSuffix temp ".zip")
    (d3 : target ≠ pyJoin (pyParent temp) (rn ++ "-main"))
    (d4 : temp ≠ pyWithSuffix temp ".zip")
    (hdeps : pyTruthy options.dependencies = true →
      ∃ items, pyIterElems options.dependencies = some items ∧
        ∀ v ∈ items, ∃ dep, v = JVal.jstr dep ∧
          pyStartsWith dep (ALLOWED_ORG ++ "/") = false)
    (hcmds : pyTruthy options.commands = true) :
    (install_package (fuel + 1) (.node d deps) s ri nm).sys.cwd = target ∧
    (s.cwd ≠ target → (install_package (fuel + 1) (.node d deps) s ri nm).sys.cwd ≠ s.cwd) := by
  subst hopt
  have hmain : (install_package (fuel + 1) (.node d deps) s ri nm).sys.cwd = target := by
    simp only [install_package]
    rw [if_pos hv, ← hrn, ← htemp]
    by_cases hst : temp ∈ s.paths
    · rw [if_pos hst]
      exact install_after_download_cwd (install_package fuel) d deps rn
        (normalize_repo_url ri) temp nm { s with paths := s.paths.erase temp }
        ([Effect.rmtree temp] ++ (download_repo d.dl rn temp
          { s with paths := s.paths.erase temp }).tr) pkg target
        hnet hzo hm hoff hdl hpkg htarget
        (fun hc => hnot (List.mem_of_mem_erase hc)) d1 d2 d3 d4 hdeps hcmds
    · rw [if_neg hst]
      exact install_after_download_cwd (install_package fuel) d deps rn
        (normalize_repo_url ri) temp nm s
        (([] : List Effect) ++ (download_repo d.dl rn temp s).tr) pkg target
        hnet hzo hm hoff hdl hpkg htarget hnot d1 d2 d3 d4 hdeps hcmds
  refine ⟨hmain, fun hne => ?_⟩
  rw [hmain]
  exact fun hc => hne hc.symm

/-- The environment of the C10 witness: a manifest declaring one
command. -/
def wCmd : FlatWorld :=
  ⟨⟨true, true, true⟩,
    some ["Name:\"C\"", "File:\"\"", "false", "[]", "false", "true", "true", "[\"echo hi\"]"],
    false, true, false, false⟩

/-- C10 witness: after installing a package whose manifest declares one
command, the process working directory is the package's directory, not
the one from before the call. -/
theorem C10_witness :
    (install_package 1 (.node wCmd []) S0 "MyRepo" none).sys.cwd = "/Liqueur_Packages/C" ∧
    (install_package 1 (.node wCmd []) S0 "MyRepo" none).sys.cwd ≠ S0.cwd :=
  ⟨(C10_commands_change_cwd 0 wCmd [] S0 "MyRepo" none "MyRepo"
      "/Liqueur_Packages/temp_MyRepo" "C" "/Liqueur_Packages/C"
      (parse_options wCmd.optionFile) (by decide) (by decide) rfl (by decide) (by decide)
      (by decide) (by decide) (by decide) (by decide) (by decide) (by decide) (by decide)
      (by decide) (by decide) (by decide) (by decide)
      (fun h => absurd h (by decide)) (by decide)).1,
   (C10_commands_change_cwd 0 wCmd [] S0 "MyRepo" none "MyRepo"
      "/Liqueur_Packages/temp_MyRepo" "C" "/Liqueur_Packages/C"
      (parse_options wCmd.optionFile) (by decide) (by decide) rfl (by decide) (by decide)
      (by decide) (by decide) (by decide) (by decide) (by decide) (by decide) (by decide)
      (by decide) (by decide) (by decide) (by decide)
      (fun h => absurd h (by decide)) (by decide)).2 (by decide)⟩

/-! ## Claims C8 and C9 -/

/-- Every entry of a chmod-walked tree is writable. -/
theorem chmodAll_writable (fs : List Ent) : ∀ e ∈ chmodAll fs, e.writable = true := by
  intro e he
  simp only [chmodAll, List.mem_map] at he
  obtain ⟨a, -, rfl⟩ := he
  rfl

/-- In the retry loop, every strict `shutil.rmtree` attempt happens on a
snapshot in which the walk has already set every writable bit. -/
theorem force_remove_loop_strict_writable (retries : Nat) :
    ∀ fs t snap, REvent.strictAttempt snap ∈ (force_remove_loop fs t retries).2.2 →
      ∀ e ∈ snap, e.writable = true := by
  induction retries with
  | zero =>
    intro fs t snap h
    simp [force_remove_loop] at h
  | succ n ih =>
    intro fs t snap h
    simp only [force_remove_loop] at h
    by_cases hok : rmtreeOk (chmodAll fs) t = true
    · simp only [hok, if_pos] at h
      simp only [List.mem_append, List.mem_map, List.mem_singleton] at h
      rcases h with ⟨a, -, hchm⟩ | hstr
      · exact absurd hchm (by intro hc; cases hc)
      · obtain rfl : snap = chmodAll fs := by injection hstr
        exact chmodAll_writable fs
    · simp only [hok] at h
      simp only [if_neg Bool.false_ne_true, List.mem_append, List.mem_map,
        List.mem_cons, List.mem_singleton] at h
      rcases h with (⟨a, -, hchm⟩ | hstr | hnil) | hsl | hrec
      · exact absurd hchm (by intro hc; cases hc)
      · obtain rfl : snap = chmodAll fs := by injection hstr
        exact chmodAll_writable fs
      · cases hnil
      · cases hsl
      · exact ih (chmodAll fs) (t + 1) snap hrec

/-- `force_remove` never reports failure: both exits of its body return
`True` (the retry loop's success exit, and the post-retry
`shutil.rmtree(path, ignore_errors=True)` exit, whose per-entry errors
are all suppressed). -/
theorem force_remove_returns_true (fs : List Ent) (retries : Nat) :
    (force_remove fs retries).ok = true := by
  simp only [force_remove]
  split <;> rfl

/-- C8: on every strict attempt of `force_remove`, the writable bit has
been set on every file and directory under the target path before the
recursive delete is attempted; and for a tree whose only deletion
obstacle is read-only entries (no transient locks), the first attempt
succeeds — the events are exactly one chmod walk followed by one
successful strict delete — and the call returns success. -/
theorem C8_force_remove (fs : List Ent) (retries : Nat) :
    (∀ snap, REvent.strictAttempt snap ∈ (force_remove fs retries).events →
      ∀ e ∈ snap, e.writable = true) ∧
    (1 ≤ retries → (∀ e ∈ fs, e.lockedUntil = 0) →
      (force_remove fs retries).ok = true ∧
      (force_remove fs retries).events =
        fs.map (fun e => REvent.chmod e.path) ++ [REvent.strictAttempt (chmodAll fs)]) := by
  constructor
  · intro snap h
    simp only [force_remove] at h
    split at h
    · exact force_remove_loop_strict_writable retries fs 0 snap h
    · simp only [List.mem_append, List.mem_singleton] at h
      rcases h with hl | hfb
      · exact force_remove_loop_strict_writable retries fs 0 snap hl
      · cases hfb
  · intro hr hlock
    obtain ⟨n, rfl⟩ : ∃ n, retries = n + 1 := ⟨retries - 1, by omega⟩
    have hok : rmtreeOk (chmodAll fs) 0 = true := by
      simp only [rmtreeOk, chmodAll, List.all_map, List.all_eq_true]
      intro e he
      simp [hlock e he]
    constructor
    · exact force_remove_returns_true fs (n + 1)
    · simp [force_remove, force_remove_loop, hok]

/-- A read-only file inside a package directory. -/
def roFile : Ent := ⟨"/Liqueur_Packages/OldApp/readme.txt", false, 0⟩

/-- C8 witness: a directory whose only obstacle is one read-only file is
deleted on the first attempt after the walk sets its writable bit. -/
theorem C8_witness :
    (∀ e ∈ [roFile], e.lockedUntil = 0) ∧
    (force_remove [roFile] 3).ok = true ∧
    (force_remove [roFile] 3).events =
      [roFile].map (fun e => REvent.chmod e.path) ++ [REvent.strictAttempt (chmodAll [roFile])] := by
  have h := (C8_force_remove [roFile] 3).2 (by decide) (by decide)
  exact ⟨by decide, h.1, h.2⟩

/-- C9: `force_remove` returns success for every input (its `False`
branch is unreachable because the post-retry fallback ignores all
per-entry errors), and consequently `uninstall_package` of a registered
name whose recorded directory exists always removes the registry entry
and reports success, never its failure branch. -/
theorem C9_uninstall_always_removes (fs : List Ent) (retries : Nat) (s : Sys)
    (tree : List Ent) (r : Nat) (name : String) (e : Entry)
    (hlook : dictLookup name s.registry = some e) (hex : e.path ∈ s.paths) :
    (force_remove fs retries).ok = true ∧
    (uninstall_package s tree r name).outcome = .removed ∧
    (uninstall_package s tree r name).registry = dictErase name s.registry := by
  refine ⟨force_remove_returns_true fs retries, ?_, ?_⟩ <;>
    simp [uninstall_package, hlook, hex, force_remove_returns_true]

/-- The registered system used by the C9 witness. -/
def s9 : Sys :=
  ⟨[("App", ⟨"https://github.com/Liqueur-Manager/App", "/Liqueur_Packages/App", "t"⟩)],
    ["/Liqueur_Packages/App"], "/home/user", "t"⟩

/-- C9 witness: uninstalling the registered `App`, whose directory
exists, removes its registry entry and reports success. -/
theorem C9_witness :
    (force_remove [roFile] 0).ok = true ∧
    (uninstall_package s9 [roFile] 3 "App").outcome = .removed ∧
    (uninstall_package s9 [roFile] 3 "App").registry = dictErase "App" s9.registry :=
  C9_uninstall_always_removes [roFile] 0 s9 [roFile] 3 "App"
    ⟨"https://github.com/Liqueur-Manager/App", "/Liqueur_Packages/App", "t"⟩
    (by decide) (by decide)

end Liqueur
